import Mathlib

/-!
A shallow embedding of the catalog import/export pipeline and the
basket/order engine of the procurement backend (backend/tasks.py,
backend/views.py, backend/signals.py, backend/models.py).

Database tables are lists of row structures; auto primary keys are drawn
from per-table counters, mirroring the auto fields of the Django models.
Parsed YAML documents are modelled by the dynamic value type `Y`.
-/

/-- A parsed YAML/JSON-like value (the result of `yaml.safe_load`). -/
inductive Y where
  | s : String → Y
  | i : Int → Y
  | arr : List Y → Y
  | map : List (String × Y) → Y

/-- Dictionary lookup (`data[key]` / `key in data`); `none` on a non-map or a missing key. -/
def Y.get? : Y → String → Option Y
  | .map kvs, k => (kvs.find? (fun kv => kv.1 == k)).map (fun kv => kv.2)
  | _, _ => none

/-- `key in data` for a map value. -/
def Y.hasKey (y : Y) (k : String) : Bool := (y.get? k).isSome

/-- A row of the custom user model (only the columns the pipeline reads). -/
structure UserRow where
  id : Nat
  user_type : String
deriving DecidableEq, Repr

/-- A `Shop` row: name, owning user (nullable one-to-one). -/
structure ShopRow where
  id : Nat
  name : String
  user : Option Nat
deriving DecidableEq, Repr

/-- A `Category` row; its primary key is externally supplied by import documents. -/
structure CategoryRow where
  id : Int
  name : String
deriving DecidableEq, Repr

/-- A `Product` row; `category` is the foreign key to `CategoryRow.id`. -/
structure ProductRow where
  id : Nat
  name : String
  category : Int
deriving DecidableEq, Repr

/-- A `ProductInfo` row. `external_id` carries a table-wide `unique=True` constraint
in the model and migration, and all numeric columns are `PositiveIntegerField`s. -/
structure ProductInfoRow where
  id : Nat
  model : String
  external_id : Int
  product : Nat
  shop : Nat
  quantity : Int
  price : Int
  price_rrc : Int
deriving DecidableEq, Repr

/-- A `Parameter` row (a parameter name, shared globally). -/
structure ParameterRow where
  id : Nat
  name : String
deriving DecidableEq, Repr

/-- A `ProductParameter` row: (product_info, parameter) → value, unique per pair. -/
structure ProductParameterRow where
  id : Nat
  product_info : Nat
  parameter : Nat
  value : Y

/-- A `Contact` row (only the owning user matters for the claims). -/
structure ContactRow where
  id : Nat
  user : Nat
deriving DecidableEq, Repr

/-- An `Order` row: owner, status string, optional contact. -/
structure OrderRow where
  id : Nat
  user : Nat
  status : String
  contact : Option Nat
deriving DecidableEq, Repr

/-- An `OrderItem` row: (order, product_info) → quantity, unique per pair. -/
structure OrderItemRow where
  id : Nat
  order : Nat
  product_info : Nat
  quantity : Int
deriving DecidableEq, Repr

/-- The database state shared by the importer, the exporter and the views.
`category_shops` is the `Category.shops` many-to-many table. -/
structure DB where
  users : List UserRow
  shops : List ShopRow
  categories : List CategoryRow
  category_shops : List (Int × Nat)
  products : List ProductRow
  productInfos : List ProductInfoRow
  parameters : List ParameterRow
  productParameters : List ProductParameterRow
  contacts : List ContactRow
  orders : List OrderRow
  orderItems : List OrderItemRow
  nextShopId : Nat
  nextProductId : Nat
  nextProductInfoId : Nat
  nextParameterId : Nat
  nextProductParameterId : Nat
  nextOrderId : Nat
  nextOrderItemId : Nat

/-- A fresh database holding only user accounts. -/
def initDB (us : List UserRow) : DB :=
  { users := us, shops := [], categories := [], category_shops := [], products := [],
    productInfos := [], parameters := [], productParameters := [], contacts := [],
    orders := [], orderItems := [],
    nextShopId := 1, nextProductId := 1, nextProductInfoId := 1, nextParameterId := 1,
    nextProductParameterId := 1, nextOrderId := 1, nextOrderItemId := 1 }

/-- All `external_id` values currently present in `ProductInfo`. -/
def extIds (db : DB) : List Int := db.productInfos.map (fun pi => pi.external_id)

/-- `Category.objects.filter(id=cid)`. -/
def findCategories (db : DB) (cid : Int) : List CategoryRow :=
  db.categories.filter (fun c => c.id == cid)

/-- `Product.objects.filter(name=n)`. -/
def findProductsByName (db : DB) (n : String) : List ProductRow :=
  db.products.filter (fun p => p.name == n)

/-- `Parameter.objects.filter(name=n)`. -/
def findParametersByName (db : DB) (n : String) : List ParameterRow :=
  db.parameters.filter (fun p => p.name == n)

/-- `product.category = category; product.save()` — an UPDATE of one row by primary key. -/
def updateProductCategory (ps : List ProductRow) (pid : Nat) (cid : Int) : List ProductRow :=
  ps.map (fun p => if p.id == pid then { p with category := cid } else p)

/-- The per-item required fields of `do_import`, in source order. -/
def requiredItemFields : List String :=
  ["id", "category", "model", "quantity", "price", "price_rrc", "name"]

/-- First required goods field missing from an item, if any. -/
def firstMissingField (item : Y) : Option String :=
  requiredItemFields.find? (fun f => !(item.hasKey f))

/-- `ProductParameter.objects.create(...)`: enforces the `unique_product_parameter`
constraint, appends the row, draws a fresh primary key. -/
def ppCreate (db : DB) (piId parId : Nat) (v : Y) : Except String DB :=
  if db.productParameters.any (fun pp => pp.product_info == piId && pp.parameter == parId) then
    .error "IntegrityError: unique_product_parameter"
  else
    .ok { db with
          productParameters := db.productParameters ++
            [{ id := db.nextProductParameterId, product_info := piId, parameter := parId, value := v }],
          nextProductParameterId := db.nextProductParameterId + 1 }

/-- `Parameter.objects.get_or_create(name=name)` followed by the `ProductParameter` create. -/
def createProductParameter (db : DB) (piId : Nat) (pname : String) (v : Y) : Except String DB :=
  match findParametersByName db pname with
  | [] =>
      let par : ParameterRow := { id := db.nextParameterId, name := pname }
      ppCreate { db with parameters := db.parameters ++ [par],
                         nextParameterId := db.nextParameterId + 1 } piId par.id v
  | [par] => ppCreate db piId par.id v
  | _ => .error "MultipleObjectsReturned: Parameter"

/-- The loop over the parameter dictionary of one goods item. -/
def processParameters (piId : Nat) : List (String × Y) → DB → Except String DB
  | [], db => .ok db
  | (n, v) :: rest, db =>
    match createProductParameter db piId n v with
    | .error e => .error e
    | .ok db2 => processParameters piId rest db2

/-- The tail of the goods-item body once the product row is resolved: read the
remaining item fields, create the `ProductInfo` row (with its constraints), then
process the parameter dictionary. -/
def piCreateAndParams (shopId : Nat) (item : Y) (p : ProductRow) (db2 : DB) :
    Except String DB :=
  match item.get? "model", item.get? "id", item.get? "price",
        item.get? "price_rrc", item.get? "quantity" with
  | some (.s mdl), some (.i ext), some (.i price), some (.i rrc), some (.i qty) =>
    if (extIds db2).contains ext then
      .error "IntegrityError: duplicate external_id"
    else if ext < 0 || qty < 0 || price < 0 || rrc < 0 then
      .error "IntegrityError: positive-integer check"
    else
      let pi : ProductInfoRow :=
        { id := db2.nextProductInfoId, model := mdl, external_id := ext, product := p.id,
          shop := shopId, quantity := qty, price := price, price_rrc := rrc }
      let db3 := { db2 with productInfos := db2.productInfos ++ [pi],
                            nextProductInfoId := db2.nextProductInfoId + 1 }
      match item.get? "parameters" with
      | none => .ok db3
      | some (.map ps) => processParameters pi.id ps db3
      | some _ => .error "AttributeError: parameters value has no attribute items"
  | _, _, _, _, _ => .error "TypeError: goods item field of unexpected type"

/-- The goods-item body after the category has been resolved to `cid`:
product upsert (with category reassignment), then `piCreateAndParams`. -/
def processItemBody (shopId : Nat) (item : Y) (cid : Int) (db : DB) : Except String DB :=
  match item.get? "name" with
  | some (.s pname) =>
    let pres : Except String (ProductRow × DB) :=
      match findProductsByName db pname with
      | [] =>
          let p : ProductRow := { id := db.nextProductId, name := pname, category := cid }
          .ok (p, { db with products := db.products ++ [p], nextProductId := db.nextProductId + 1 })
      | [p] =>
          if p.category == cid then .ok (p, db)
          else .ok ({ p with category := cid },
                    { db with products := updateProductCategory db.products p.id cid })
      | _ => .error "MultipleObjectsReturned: Product"
    match pres with
    | .error e => .error e
    | .ok (p, db2) => piCreateAndParams shopId item p db2
  | _ => .error "TypeError: goods item name"

/-- One iteration of the goods loop of `do_import`. A failing category lookup
(`Category.objects.get` inside `try/except Exception`) skips the item; every
other failure propagates to the surrounding transaction. -/
def processItem (shopId : Nat) (item : Y) (db : DB) : Except String DB :=
  match item with
  | .map _ =>
    match firstMissingField item with
    | some f => .error ("Отсутствует поле в товаре: " ++ f)
    | none =>
      match item.get? "category" with
      | some (.i cid) =>
        match findCategories db cid with
        | [_] => processItemBody shopId item cid db
        | _ => .ok db
      | _ => .ok db
  | _ => .error "TypeError: goods item is not a mapping"

/-- The goods loop of `do_import`, run inside `transaction.atomic()`. -/
def goodsFold (shopId : Nat) : List Y → DB → Except String DB
  | [], db => .ok db
  | item :: rest, db =>
    match processItem shopId item db with
    | .error e => .error e
    | .ok db2 => goodsFold shopId rest db2

/-- `ProductInfo.objects.filter(shop=shop).delete()` with its cascades:
the `ProductInfo` rows of the shop go away together with their `ProductParameter`
rows and any `OrderItem` rows referencing them. -/
def deleteShopProductInfos (db : DB) (shopId : Nat) : DB :=
  let deadIds := (db.productInfos.filter (fun pi => pi.shop == shopId)).map (fun pi => pi.id)
  { db with
    productInfos := db.productInfos.filter (fun pi => !(pi.shop == shopId)),
    productParameters := db.productParameters.filter (fun pp => !(deadIds.contains pp.product_info)),
    orderItems := db.orderItems.filter (fun oi => !(deadIds.contains oi.product_info)) }

/-- The category loop of `do_import`: a `get_or_create` by externally supplied id
(with the name as a creation default) for each entry. Runs outside the transaction,
so rows created before a failure persist (the error carries the updated state). -/
def catsPhase : List Y → DB → Except (String × DB) DB
  | [], db => .ok db
  | c :: rest, db =>
    match c.get? "id", c.get? "name" with
    | some (.i cid), some (.s cname) =>
      match findCategories db cid with
      | [] => catsPhase rest { db with categories := db.categories ++ [{ id := cid, name := cname }] }
      | [_] => catsPhase rest db
      | _ => .error ("MultipleObjectsReturned: Category", db)
    | _, _ => .error ("KeyError or TypeError: category entry", db)

/-- The outcome of a `do_import` task run. `loadError` is the `JsonResponse`
returned directly from the `except RequestException` around `requests.get`;
`fatalError` is the Status-False dictionary of the outer handlers;
`retryScheduled` would be a `self.retry` call (present in the code at
tasks.py:141 but unreachable, since the inner handler already returned). -/
inductive ImportResult where
  | ok
  | loadError (msg : String)
  | fatalError (msg : String)
  | retryScheduled
deriving DecidableEq, Repr

/-- The outcome of the HTTP fetch `requests.get(url, timeout=5)` + `raise_for_status()`:
either the parsed document or a raised `RequestException` (network error, 4xx/5xx). -/
inductive Fetch where
  | ok (data : Y)
  | failed (msg : String)

/-- The categories-and-goods tail of `do_import` once the shop row is resolved.
A failure inside the goods transaction rolls back the delete and the goods
writes, but keeps the shop/category upserts. -/
def importGoodsPhase (shopId : Nat) (data : Y) (db : DB) : ImportResult × DB :=
  match data.get? "categories" with
  | some (.arr cats) =>
    match catsPhase cats db with
    | .error (e, db2) => (.fatalError e, db2)
    | .ok db2 =>
      match data.get? "goods" with
      | some (.arr goods) =>
        match goodsFold shopId goods (deleteShopProductInfos db2 shopId) with
        | .error e => (.fatalError e, db2)
        | .ok db4 => (.ok, db4)
      | some _ => (.fatalError "TypeError: goods is not a list", db2)
      | none => (.fatalError "KeyError: goods", db2)
  | some _ => (.fatalError "TypeError: categories is not a list", db)
  | none => (.fatalError "KeyError: categories", db)

/-- The top-level required keys of an import document, in source order. -/
def requiredTopFields : List String := ["shop", "categories", "goods"]

/-- `do_import(url, user_id)` from backend/tasks.py. `urlPresent` is `bool(url)`;
`urlReachable` is the outcome of `validate_url` (which performs its own HEAD
request and raises `ValueError` on any `RequestException`); `fetch` is the
outcome of `requests.get` + `raise_for_status`. -/
def do_import (urlPresent urlReachable : Bool) (fetch : Fetch) (user_id : Option Nat)
    (db : DB) : ImportResult × DB :=
  if !urlPresent then (.fatalError "URL не указан", db)
  else if !urlReachable then (.fatalError "Неверный URL", db)
  else
    match user_id with
    | none => (.fatalError "Пользователь не указан", db)
    | some uid =>
      if !(db.users.any (fun u => u.id == uid && u.user_type == "shop")) then
        (.fatalError "Пользователь не найден или не является магазином", db)
      else
        match fetch with
        | .failed msg => (.loadError msg, db)
        | .ok data =>
          match data with
          | .map _ =>
            match requiredTopFields.find? (fun f => !(data.hasKey f)) with
            | some f => (.fatalError ("Отсутствует обязательное поле: " ++ f), db)
            | none =>
              match data.get? "shop" with
              | some (.s sname) =>
                match db.shops.filter (fun sh => sh.name == sname) with
                | [] =>
                  let sh : ShopRow := { id := db.nextShopId, name := sname, user := some uid }
                  importGoodsPhase sh.id data
                    { db with shops := db.shops ++ [sh], nextShopId := db.nextShopId + 1 }
                | [sh] =>
                  if sh.user == some uid then importGoodsPhase sh.id data db
                  else (.fatalError "Этот магазин принадлежит другому пользователю", db)
                | _ => (.fatalError "MultipleObjectsReturned: Shop", db)
              | _ => (.fatalError "TypeError: shop name", db)
          | _ => (.fatalError "TypeError: response is not a mapping", db)

/-- The outcome of a `do_export` task run (file storage is out of scope; the
produced document is returned). -/
inductive ExportResult where
  | ok (doc : Y)
  | shopNotFound
  | fatal (msg : String)

/-- `Category.objects.filter(shops=shop)` serialized: categories linked to the
shop through the many-to-many table, in the model ordering (name descending). -/
def exportCategoriesY (db : DB) (shopId : Nat) : List Y :=
  let linked := db.categories.filter (fun c => db.category_shops.contains (c.id, shopId))
  (linked.insertionSort (fun a b => b.name ≤ a.name)).map
    (fun c => .map [("id", .i c.id), ("name", .s c.name)])

/-- Effectful map over a list for `Except`, mirroring a Python `for` loop that
builds a list and may raise. -/
def mapE (f : α → Except String β) : List α → Except String (List β)
  | [] => .ok []
  | x :: xs =>
    match f x with
    | .error e => .error e
    | .ok y =>
      match mapE f xs with
      | .error e => .error e
      | .ok ys => .ok (y :: ys)

/-- `pi.product_parameters.all()` serialized: parameter name → value pairs. -/
def exportParamsY (db : DB) (piId : Nat) : Except String (List (String × Y)) :=
  mapE (fun pp =>
      match db.parameters.find? (fun p => p.id == pp.parameter) with
      | some p => .ok (p.name, pp.value)
      | none => .error "Parameter row missing")
    (db.productParameters.filter (fun pp => pp.product_info == piId))

/-- One goods entry of `do_export`, with the key layout of the source
(`category_id`, not `category`). -/
def exportEntry (db : DB) (pi : ProductInfoRow) : Except String Y :=
  match db.products.find? (fun p => p.id == pi.product) with
  | none => .error "Product row missing"
  | some p =>
    match exportParamsY db pi.id with
    | .error e => .error e
    | .ok ps =>
      .ok (.map [("name", .s p.name), ("category_id", .i p.category), ("model", .s pi.model),
                 ("quantity", .i pi.quantity), ("price", .i pi.price),
                 ("price_rrc", .i pi.price_rrc), ("id", .i pi.external_id),
                 ("parameters", .map ps)])

/-- The goods loop of `do_export`: one entry per `ProductInfo` row of the shop. -/
def exportGoodsY (db : DB) (shopId : Nat) : Except String (List Y) :=
  mapE (exportEntry db) (db.productInfos.filter (fun pi => pi.shop == shopId))

/-- `do_export(shop_id)` from backend/tasks.py, up to the YAML dump / file save. -/
def do_export (shopId : Nat) (db : DB) : ExportResult :=
  if shopId == 0 then .fatal "Не указан ID магазина"
  else
    match db.shops.find? (fun sh => sh.id == shopId) with
    | none => .shopNotFound
    | some sh =>
      match sh.user with
      | none => .fatal "AttributeError: shop has no user"
      | some uid =>
        match exportGoodsY db shopId with
        | .error e => .fatal e
        | .ok goods =>
          .ok (.map [("user_id", .i uid), ("shop", .s sh.name),
                     ("categories", .arr (exportCategoriesY db shopId)),
                     ("goods", .arr goods)])

/-- The outcome of `BasketView.post`. `okCreated` is the success response with the
created-objects count; `validationError` is the whole-request return carrying
`serializer.errors`; `integrityError` is the wrong-arguments response from the
`except IntegrityError` handler; `argsError` is the missing-arguments response;
`serverError` is an exception escaping the view (HTTP 500). -/
inductive BasketResult where
  | okCreated (n : Nat)
  | validationError
  | integrityError
  | argsError
  | serverError
deriving DecidableEq, Repr

/-- One decoded element of the `items` list posted to `/basket`. -/
structure BasketItemIn where
  product_info : Int
  quantity : Int
deriving DecidableEq, Repr

/-- `OrderItemSerializer.is_valid()` for one posted item: the referenced
`ProductInfo` must exist, and `quantity` must fit the `PositiveIntegerField`
bounds (DRF maps it to an integer field with `min_value=0`). -/
def basketItemValid (db : DB) (it : BasketItemIn) : Bool :=
  (db.productInfos.any (fun pi => (pi.id : Int) == it.product_info)) &&
  (0 ≤ it.quantity && it.quantity ≤ 2147483647)

/-- The item loop of `BasketView.post`: each valid item is saved immediately
(no transaction); the first invalid item or unique-constraint violation
returns at once, keeping the rows already created. -/
def basketLoop (orderId : Nat) : List BasketItemIn → Nat → DB → BasketResult × DB
  | [], created, db => (.okCreated created, db)
  | it :: rest, created, db =>
    if basketItemValid db it then
      match db.productInfos.find? (fun pi => (pi.id : Int) == it.product_info) with
      | none => (.serverError, db)
      | some pi =>
        if db.orderItems.any (fun oi => oi.order == orderId && oi.product_info == pi.id) then
          (.integrityError, db)
        else
          let oi : OrderItemRow :=
            { id := db.nextOrderItemId, order := orderId, product_info := pi.id,
              quantity := it.quantity }
          basketLoop orderId rest (created + 1)
            { db with orderItems := db.orderItems ++ [oi],
                      nextOrderItemId := db.nextOrderItemId + 1 }
    else (.validationError, db)

/-- `BasketView.post` (backend/views.py): get-or-create the basket of the caller
`Order`, then run the item loop. `items` is the decoded `items` payload
(`none` or `[]` are falsy, yielding the missing-arguments response). -/
def BasketView_post (uid : Nat) (items : Option (List BasketItemIn)) (db : DB) :
    BasketResult × DB :=
  match items with
  | none => (.argsError, db)
  | some [] => (.argsError, db)
  | some l =>
    match db.orders.filter (fun o => o.user == uid && o.status == "basket") with
    | [] =>
      let o : OrderRow := { id := db.nextOrderId, user := uid, status := "basket", contact := none }
      basketLoop o.id l 0
        { db with orders := db.orders ++ [o], nextOrderId := db.nextOrderId + 1 }
    | [o] => basketLoop o.id l 0 db
    | _ => (.serverError, db)

/-- The outcome of `OrderView.post`. `okPlaced` is the success response;
`jsonError` is a structured Status-False JSON rejection;
`serverError` is an exception escaping the view (HTTP 500). -/
inductive OrderResult where
  | okPlaced
  | jsonError (msg : String)
  | serverError (msg : String)
deriving DecidableEq, Repr

/-- `OrderView.post` (backend/views.py): checkout of a basket given an order id
and a contact id. The view fetches the order of the caller and then iterates
`order.items.all()`; the `OrderItem` related name is `order_items`
(backend/models.py), so this attribute access raises `AttributeError` before
the stock check, and a missing order raises `Order.DoesNotExist`; the view
only catches `IntegrityError`, so both escape as a server error with no state
change. The stock-check and update code below the crash point is unreachable. -/
def OrderView_post (uid : Nat) (orderId : Int) (contactId : Int) (db : DB) :
    OrderResult × DB :=
  match db.orders.find? (fun o => (o.id : Int) == orderId && o.user == uid) with
  | none => (.serverError "Order matching query does not exist.", db)
  | some _ => (.serverError "AttributeError: Order object has no attribute items", db)

/-- `new_order_signal` (backend/signals.py): on the order-placed signal, look up
the user, take the first `Order` of the user still in basket status (`.first()`
on an unordered queryset sorts by primary key), flip its status to new and
save it, then enqueue the notification email. Any exception is logged and
swallowed. -/
def new_order_signal (uid : Nat) (db : DB) : DB :=
  match db.users.find? (fun u => u.id == uid) with
  | none => db
  | some _ =>
    let baskets := db.orders.filter (fun o => o.user == uid && o.status == "basket")
    match baskets.insertionSort (fun a b => a.id ≤ b.id) with
    | [] => db
    | o :: _ =>
      { db with orders := db.orders.map (fun x => if x.id == o.id then { x with status := "new" } else x) }

/-- A structured goods entry of an import document (the well-typed shape that
`encodeItem` turns into the parsed-YAML mapping the importer receives). -/
structure GoodsItem where
  id : Int
  name : String
  category : Int
  model : String
  quantity : Int
  price : Int
  price_rrc : Int
  parameters : List (String × Y)

/-- A structured import document, following the external document contract. -/
structure Doc where
  shop : String
  categories : List CategoryRow
  goods : List GoodsItem

/-- The parsed-YAML mapping for one goods entry. -/
def encodeItem (g : GoodsItem) : Y :=
  .map [("id", .i g.id), ("name", .s g.name), ("category", .i g.category),
        ("model", .s g.model), ("quantity", .i g.quantity), ("price", .i g.price),
        ("price_rrc", .i g.price_rrc), ("parameters", .map g.parameters)]

/-- The parsed-YAML mapping for one category entry. -/
def encodeCat (c : CategoryRow) : Y := .map [("id", .i c.id), ("name", .s c.name)]

/-- The parsed-YAML mapping for a whole import document. -/
def encodeDoc (d : Doc) : Y :=
  .map [("shop", .s d.shop), ("categories", .arr (d.categories.map encodeCat)),
        ("goods", .arr (d.goods.map encodeItem))]

/-- The goods entry `do_export` produces for an imported entry `g`: the same
content, but keyed `category_id` instead of `category`. -/
def exportItemY (g : GoodsItem) : Y :=
  .map [("name", .s g.name), ("category_id", .i g.category), ("model", .s g.model),
        ("quantity", .i g.quantity), ("price", .i g.price), ("price_rrc", .i g.price_rrc),
        ("id", .i g.id), ("parameters", .map g.parameters)]

/-- The goods entries the import keeps: those whose category id resolves to
exactly one `Category` row; all others are skipped by the
`except Exception: continue` around the category lookup. -/
def keptBy (cats : List CategoryRow) (gs : List GoodsItem) : List GoodsItem :=
  gs.filter (fun g => (cats.filter (fun c => c.id == g.category)).length == 1)

/-- Parameter names after the parameter dictionary of one item is processed:
`get_or_create` appends only the missing names, in order. -/
def addNames : List (String × Y) → List String → List String
  | [], acc => acc
  | (n, _) :: rest, acc =>
    if acc.contains n then addNames rest acc else addNames rest (acc ++ [n])

/-- Parameter names after a list of goods entries has been processed. -/
def addNamesAll : List GoodsItem → List String → List String
  | [], acc => acc
  | g :: rest, acc => addNamesAll rest (addNames g.parameters acc)

/-- The `Parameter` table contents (names, in row order). -/
def parameterNames (db : DB) : List String := db.parameters.map (fun p => p.name)

/-- The positivity constraints that the `PositiveIntegerField` columns impose
on a goods entry at the database level. -/
def GoodsItem.nonneg (g : GoodsItem) : Prop :=
  0 ≤ g.id ∧ 0 ≤ g.quantity ∧ 0 ≤ g.price ∧ 0 ≤ g.price_rrc

/-- Bookkeeping invariants of the database: auto primary keys stay below their
counters, primary keys are distinct, parameter names are distinct (the importer
creates them only through `get_or_create(name=...)`), and `ProductParameter`
rows reference allocated `ProductInfo` keys. -/
structure DBInv (db : DB) : Prop where
  prodFresh : ∀ p ∈ db.products, p.id < db.nextProductId
  prodNodup : (db.products.map ProductRow.id).Nodup
  piFresh : ∀ r ∈ db.productInfos, r.id < db.nextProductInfoId
  parFresh : ∀ r ∈ db.parameters, r.id < db.nextParameterId
  parNodup : (db.parameters.map ParameterRow.id).Nodup
  parNamesNodup : (db.parameters.map ParameterRow.name).Nodup
  ppPiFresh : ∀ r ∈ db.productParameters, r.product_info < db.nextProductInfoId
  ppParFresh : ∀ r ∈ db.productParameters, r.parameter < db.nextParameterId

/-- Whether an `OrderView.post` outcome is a structured JSON rejection visible
to the caller (as opposed to a success or an unhandled exception). -/
def OrderResult.isJsonRejection : OrderResult → Bool
  | .jsonError _ => true
  | _ => false

/-- Whether an `OrderView.post` outcome is an unhandled exception (HTTP 500). -/
def OrderResult.isServerError : OrderResult → Bool
  | .serverError _ => true
  | _ => false

/-- Well-formedness of an import document: distinct product names, distinct
external ids, nonnegative numeric fields, distinct parameter keys per entry,
distinct category ids. -/
def WellFormedDoc (d : Doc) : Prop :=
  (d.goods.map GoodsItem.name).Nodup ∧
  (d.goods.map GoodsItem.id).Nodup ∧
  (∀ g ∈ d.goods, g.nonneg) ∧
  (∀ g ∈ d.goods, (g.parameters.map Prod.fst).Nodup) ∧
  (d.categories.map CategoryRow.id).Nodup

/-- The import document of the worked scenario in the specification. -/
def specDoc : Doc :=
  { shop := "S",
    categories := [{ id := 1, name := "Phones" }],
    goods := [{ id := 100, name := "X", category := 1, model := "m1", quantity := 5,
                price := 1000, price_rrc := 1200, parameters := [("color", .s "red")] }] }

/-- A document with one goods entry whose category id (99) matches no category. -/
def docC7 : Doc :=
  { shop := "S",
    categories := [{ id := 1, name := "A" }],
    goods := [{ id := 101, name := "P1", category := 1, model := "m1", quantity := 1,
                price := 10, price_rrc := 12, parameters := [] },
              { id := 102, name := "P2", category := 99, model := "m2", quantity := 2,
                price := 20, price_rrc := 22, parameters := [] },
              { id := 103, name := "P3", category := 1, model := "m3", quantity := 3,
                price := 30, price_rrc := 33, parameters := [] }] }

/-- Checkout scenario state: buyer 9 has basket order 1 holding 10 units of a
product whose stock is 5, and owns contact 3. -/
def dbC2 : DB :=
  { users := [{ id := 9, user_type := "buyer" }, { id := 10, user_type := "shop" }],
    shops := [{ id := 1, name := "S", user := some 10 }],
    categories := [{ id := 1, name := "Phones" }],
    category_shops := [],
    products := [{ id := 1, name := "X", category := 1 }],
    productInfos := [{ id := 1, model := "m1", external_id := 100, product := 1, shop := 1,
                       quantity := 5, price := 1000, price_rrc := 1200 }],
    parameters := [], productParameters := [],
    contacts := [{ id := 3, user := 9 }],
    orders := [{ id := 1, user := 9, status := "basket", contact := none }],
    orderItems := [{ id := 1, order := 1, product_info := 1, quantity := 10 }],
    nextShopId := 2, nextProductId := 2, nextProductInfoId := 2, nextParameterId := 1,
    nextProductParameterId := 1, nextOrderId := 2, nextOrderItemId := 2 }

/-- Checkout scenario state: caller 1 has basket order 1; contact 5 belongs to
user 2, not to the caller. -/
def dbC4 : DB :=
  { users := [{ id := 1, user_type := "buyer" }, { id := 2, user_type := "buyer" }],
    shops := [], categories := [], category_shops := [], products := [],
    productInfos := [], parameters := [], productParameters := [],
    contacts := [{ id := 5, user := 2 }],
    orders := [{ id := 1, user := 1, status := "basket", contact := none }],
    orderItems := [],
    nextShopId := 1, nextProductId := 1, nextProductInfoId := 1, nextParameterId := 1,
    nextProductParameterId := 1, nextOrderId := 2, nextOrderItemId := 1 }

/-- A user database for the import-retry scenario. -/
def dbC3 : DB := initDB [{ id := 5, user_type := "shop" }]

/-- Basket scenario state: buyer 7, three products in stock, empty basket. -/
def dbC6 : DB :=
  { users := [{ id := 7, user_type := "buyer" }],
    shops := [{ id := 1, name := "S", user := none }],
    categories := [{ id := 1, name := "C" }],
    category_shops := [],
    products := [{ id := 1, name := "A", category := 1 }],
    productInfos :=
      [{ id := 1, model := "", external_id := 101, product := 1, shop := 1,
         quantity := 10, price := 100, price_rrc := 100 },
       { id := 2, model := "", external_id := 102, product := 1, shop := 1,
         quantity := 10, price := 100, price_rrc := 100 },
       { id := 3, model := "", external_id := 103, product := 1, shop := 1,
         quantity := 10, price := 100, price_rrc := 100 }],
    parameters := [], productParameters := [], contacts := [],
    orders := [], orderItems := [],
    nextShopId := 2, nextProductId := 2, nextProductInfoId := 4, nextParameterId := 1,
    nextProductParameterId := 1, nextOrderId := 1, nextOrderItemId := 1 }

/-- Signal scenario state: user 3 with one placed order and two basket orders. -/
def dbC10 : DB :=
  { users := [{ id := 3, user_type := "buyer" }],
    shops := [], categories := [], category_shops := [], products := [],
    productInfos := [], parameters := [], productParameters := [], contacts := [],
    orders := [{ id := 1, user := 3, status := "new", contact := none },
               { id := 2, user := 3, status := "basket", contact := none },
               { id := 5, user := 3, status := "basket", contact := none }],
    orderItems := [],
    nextShopId := 1, nextProductId := 1, nextProductInfoId := 1, nextParameterId := 1,
    nextProductParameterId := 1, nextOrderId := 6, nextOrderItemId := 1 }

/-- Two shops owned by different users; shop 2 ("B") already lists external id 100. -/
def dbC8 : DB :=
  { users := [{ id := 5, user_type := "shop" }, { id := 6, user_type := "shop" }],
    shops := [{ id := 1, name := "A", user := some 5 }, { id := 2, name := "B", user := some 6 }],
    categories := [{ id := 1, name := "C" }],
    category_shops := [],
    products := [{ id := 1, name := "P", category := 1 }],
    productInfos := [{ id := 1, model := "m", external_id := 100, product := 1, shop := 2,
                       quantity := 3, price := 10, price_rrc := 12 }],
    parameters := [], productParameters := [], contacts := [], orders := [], orderItems := [],
    nextShopId := 3, nextProductId := 2, nextProductInfoId := 2, nextParameterId := 1,
    nextProductParameterId := 1, nextOrderId := 1, nextOrderItemId := 1 }

/-- A document for shop "A" reusing external id 100 (held by shop "B" in `dbC8`). -/
def docC8 : Doc :=
  { shop := "A",
    categories := [{ id := 1, name := "C" }],
    goods := [{ id := 100, name := "Q", category := 1, model := "m2", quantity := 1,
                price := 5, price_rrc := 6, parameters := [] }] }

/-- Shop "B" (id 1, owned by user 6) lists product "X" under category 1;
user 5 will import a catalog for shop "A" that moves "X" to category 2. -/
def dbC9 : DB :=
  { users := [{ id := 5, user_type := "shop" }, { id := 6, user_type := "shop" }],
    shops := [{ id := 1, name := "B", user := some 6 }],
    categories := [{ id := 1, name := "Phones" }, { id := 2, name := "Gadgets" }],
    category_shops := [],
    products := [{ id := 1, name := "X", category := 1 }],
    productInfos := [{ id := 1, model := "m", external_id := 50, product := 1, shop := 1,
                       quantity := 4, price := 10, price_rrc := 12 }],
    parameters := [], productParameters := [], contacts := [], orders := [], orderItems := [],
    nextShopId := 2, nextProductId := 2, nextProductInfoId := 2, nextParameterId := 1,
    nextProductParameterId := 1, nextOrderId := 1, nextOrderItemId := 1 }

/-- The catalog user 5 imports for shop "A": product "X" now under category 2. -/
def docC9 : Doc :=
  { shop := "A",
    categories := [{ id := 2, name := "Gadgets" }],
    goods := [{ id := 100, name := "X", category := 2, model := "m9", quantity := 7,
                price := 11, price_rrc := 13, parameters := [] }] }

/-- The catalog state after importing the specification scenario document for
user 5 on a fresh database. -/
def importedC1 : DB := (do_import true true (.ok (encodeDoc specDoc)) (some 5) dbC3).2

/-- The document `do_export` produces from that state (the error branches are
not taken; the fallback value is arbitrary). -/
def exportedC1 : Y :=
  match do_export 1 importedC1 with
  | .ok y => y
  | _ => .s ""

theorem find?_append_some {p : α → Bool} {l₁ : List α} {a : α} (l₂ : List α)
    (h : l₁.find? p = some a) : (l₁ ++ l₂).find? p = some a := by
  rw [List.find?_append, h]; rfl

theorem find?_append_none {p : α → Bool} {l₁ : List α} (l₂ : List α)
    (h : l₁.find? p = none) : (l₁ ++ l₂).find? p = l₂.find? p := by
  rw [List.find?_append, h]; rfl

theorem find?_key_of_mem {f : α → β} [DecidableEq β] {l : List α} {a : α}
    (hn : (l.map f).Nodup) (ha : a ∈ l) : l.find? (fun x => f x == f a) = some a := by
  induction l with
  | nil => cases ha
  | cons x xs ih =>
    rcases List.mem_cons.mp ha with rfl | hmem
    · simp [List.find?]
    · have hne : f x ≠ f a := by
        intro he
        have : f a ∈ xs.map f := List.mem_map_of_mem f hmem
        rw [← he] at this
        exact (List.nodup_cons.mp hn).1 this
      have : (f x == f a) = false := beq_false_of_ne hne
      simp only [List.find?, this]
      exact ih (List.nodup_cons.mp hn).2 hmem

theorem mapE_append {f : α → Except String β} {l₁ l₂ : List α} {r₁ r₂ : List β}
    (h₁ : mapE f l₁ = .ok r₁) (h₂ : mapE f l₂ = .ok r₂) :
    mapE f (l₁ ++ l₂) = .ok (r₁ ++ r₂) := by
  induction l₁ generalizing r₁ with
  | nil =>
    simp only [mapE] at h₁
    obtain rfl : ([] : List β) = r₁ := by injection h₁
    simpa using h₂
  | cons x xs ih =>
    simp only [mapE, List.cons_append, List.append_eq] at h₁ ⊢
    cases hx : f x with
    | error e => rw [hx] at h₁; exact absurd h₁ (by simp)
    | ok y =>
      rw [hx] at h₁
      simp only at h₁ ⊢
      cases hxs : mapE f xs with
      | error e => rw [hxs] at h₁; exact absurd h₁ (by simp)
      | ok ys =>
        rw [hxs] at h₁
        obtain rfl : y :: ys = r₁ := by injection h₁
        rw [ih hxs]
        rfl

theorem mapE_congr {f g : α → Except String β} {l : List α} {r : List β}
    (h : mapE f l = .ok r) (hc : ∀ x ∈ l, ∀ v, f x = .ok v → g x = .ok v) :
    mapE g l = .ok r := by
  induction l generalizing r with
  | nil => exact h
  | cons x xs ih =>
    simp only [mapE] at h ⊢
    cases hx : f x with
    | error e => rw [hx] at h; exact absurd h (by simp)
    | ok y =>
      rw [hx] at h
      simp only at h
      cases hxs : mapE f xs with
      | error e => rw [hxs] at h; exact absurd h (by simp)
      | ok ys =>
        rw [hxs] at h
        rw [hc x (List.mem_cons_self x xs) y hx,
            ih hxs (fun z hz => hc z (List.mem_cons_of_mem x hz))]
        exact h

theorem encodeItem_no_missing (g : GoodsItem) : firstMissingField (encodeItem g) = none := rfl

theorem exportItem_missing_category (g : GoodsItem) :
    firstMissingField (exportItemY g) = some "category" := rfl

theorem encodeItem_get_category (g : GoodsItem) :
    (encodeItem g).get? "category" = some (.i g.category) := rfl

theorem encodeItem_get_name (g : GoodsItem) :
    (encodeItem g).get? "name" = some (.s g.name) := rfl

theorem encodeItem_get_fields (g : GoodsItem) :
    (encodeItem g).get? "model" = some (.s g.model) ∧
    (encodeItem g).get? "id" = some (.i g.id) ∧
    (encodeItem g).get? "price" = some (.i g.price) ∧
    (encodeItem g).get? "price_rrc" = some (.i g.price_rrc) ∧
    (encodeItem g).get? "quantity" = some (.i g.quantity) ∧
    (encodeItem g).get? "parameters" = some (.map g.parameters) := ⟨rfl, rfl, rfl, rfl, rfl, rfl⟩

theorem encodeDoc_tops (d : Doc) :
    (requiredTopFields.find? (fun f => !((encodeDoc d).hasKey f))) = none ∧
    (encodeDoc d).get? "shop" = some (.s d.shop) ∧
    (encodeDoc d).get? "categories" = some (.arr (d.categories.map encodeCat)) ∧
    (encodeDoc d).get? "goods" = some (.arr (d.goods.map encodeItem)) := ⟨rfl, rfl, rfl, rfl⟩

theorem filter_key_len_le_one {f : α → β} [DecidableEq β] {l : List α}
    (hn : (l.map f).Nodup) (b : β) : (l.filter (fun x => f x == b)).length ≤ 1 := by
  have hsl : (l.filter (fun x => f x == b)).Sublist l := List.filter_sublist l
  have hsub : ((l.filter (fun x => f x == b)).map f).Nodup := (hsl.map f).nodup hn
  have hall : ∀ x ∈ l.filter (fun x => f x == b), f x = b := by
    intro x hx
    have := (List.mem_filter.mp hx).2
    exact beq_iff_eq.mp this
  cases hl : l.filter (fun x => f x == b) with
  | nil => simp
  | cons x xs =>
    cases xs with
    | nil => simp
    | cons y ys =>
      rw [hl] at hsub hall
      exfalso
      have hx : f x = b := hall x (by simp)
      have hy : f y = b := hall y (by simp)
      simp only [List.map_cons, List.nodup_cons] at hsub
      exact hsub.1 (by rw [hx, ← hy]; exact List.mem_cons_self _ _)

theorem exportEntry_stable {db db' : DB} {pi : ProductInfoRow} {y : Y}
    (hp : ∃ t, db'.products = db.products ++ t)
    (hr : ∃ t, db'.parameters = db.parameters ++ t)
    (hq : ∃ t, db'.productParameters = db.productParameters ++ t ∧
          ∀ pp ∈ t, pp.product_info ≠ pi.id)
    (h : exportEntry db pi = .ok y) : exportEntry db' pi = .ok y := by
  obtain ⟨tp, hp⟩ := hp
  obtain ⟨tr, hr⟩ := hr
  obtain ⟨tq, hq1, hq2⟩ := hq
  unfold exportEntry at h ⊢
  cases hf : db.products.find? (fun p => p.id == pi.product) with
  | none => rw [hf] at h; exact absurd h (by simp)
  | some p =>
    rw [hf] at h
    rw [hp, find?_append_some tp hf]
    simp only at h ⊢
    cases hps : exportParamsY db pi.id with
    | error e => rw [hps] at h; exact absurd h (by simp)
    | ok ps =>
      rw [hps] at h
      have hps' : exportParamsY db' pi.id = .ok ps := by
        unfold exportParamsY at hps ⊢
        rw [hq1, List.filter_append]
        have hnil : tq.filter (fun pp => pp.product_info == pi.id) = [] := by
          rw [List.filter_eq_nil_iff]
          intro a ha
          simpa using hq2 a ha
        rw [hnil, List.append_nil]
        refine mapE_congr hps ?_
        intro pp _ v hv
        cases hfp : db.parameters.find? (fun par => par.id == pp.parameter) with
        | none => rw [hfp] at hv; exact absurd hv (by simp)
        | some par =>
          rw [hfp] at hv
          rw [hr, find?_append_some tr hfp]
          exact hv
      rw [hps']
      exact h

theorem processParameters_go (piId : Nat) (ps : List (String × Y)) (done : List String) (db : DB)
    (hinv : DBInv db)
    (hpi : piId < db.nextProductInfoId)
    (hkeys : (ps.map Prod.fst).Nodup)
    (hdisj : ∀ n ∈ ps.map Prod.fst, n ∉ done)
    (hdone : ∀ pp ∈ db.productParameters, pp.product_info = piId →
       ∃ par ∈ db.parameters, par.id = pp.parameter ∧ par.name ∈ done) :
    ∃ db', processParameters piId ps db = .ok db' ∧
      db'.users = db.users ∧ db'.shops = db.shops ∧ db'.categories = db.categories ∧
      db'.category_shops = db.category_shops ∧ db'.products = db.products ∧
      db'.productInfos = db.productInfos ∧ db'.contacts = db.contacts ∧
      db'.orders = db.orders ∧ db'.orderItems = db.orderItems ∧
      db'.nextShopId = db.nextShopId ∧ db'.nextProductId = db.nextProductId ∧
      db'.nextProductInfoId = db.nextProductInfoId ∧
      db'.nextOrderId = db.nextOrderId ∧ db'.nextOrderItemId = db.nextOrderItemId ∧
      (∃ t, db'.parameters = db.parameters ++ t) ∧
      parameterNames db' = addNames ps (parameterNames db) ∧
      DBInv db' ∧
      (∃ t, db'.productParameters = db.productParameters ++ t ∧
        ∀ pp ∈ t, pp.product_info = piId) ∧
      (∀ l, exportParamsY db piId = .ok l → exportParamsY db' piId = .ok (l ++ ps)) := by
  induction ps generalizing db done with
  | nil =>
    refine ⟨db, rfl, rfl, rfl, rfl, rfl, rfl, rfl, rfl, rfl, rfl, rfl, rfl, rfl, rfl, rfl,
      ⟨[], by simp⟩, rfl, hinv, ⟨[], by simp⟩, ?_⟩
    intro l hl
    simpa using hl
  | cons nv rest ih =>
    obtain ⟨n, v⟩ := nv
    simp only [List.map_cons, List.nodup_cons] at hkeys
    simp only [processParameters]
    cases hfp : findParametersByName db n with
    | nil =>
      -- parameter with this name does not exist: create it, then the ProductParameter
      have hnmem : n ∉ parameterNames db := by
        intro hmem
        rcases List.mem_map.mp hmem with ⟨par, hparmem, hpareq⟩
        have : ¬ (par.name == n) = true := by
          have := List.filter_eq_nil_iff.mp hfp
          exact this par hparmem
        exact this (by simp [hpareq])
      simp only [createProductParameter, hfp]
      set par : ParameterRow := { id := db.nextParameterId, name := n } with hpar
      set db1 : DB := { db with parameters := db.parameters ++ [par],
                                nextParameterId := db.nextParameterId + 1 } with hdb1
      have hchk : (db1.productParameters.any
          (fun pp => pp.product_info == piId && pp.parameter == par.id)) = false := by
        rw [Bool.eq_false_iff]
        intro hany
        rcases List.any_eq_true.mp hany with ⟨pp, hppmem, hppeq⟩
        simp only [Bool.and_eq_true, beq_iff_eq] at hppeq
        rcases hdone pp hppmem hppeq.1 with ⟨parX, hmem, hid, _⟩
        have := hinv.parFresh parX hmem
        omega
      simp only [ppCreate, hchk]
      set pp0 : ProductParameterRow :=
        { id := db1.nextProductParameterId, product_info := piId, parameter := par.id,
          value := v } with hpp0
      set db2 : DB := { db1 with
        productParameters := db1.productParameters ++ [pp0],
        nextProductParameterId := db1.nextProductParameterId + 1 } with hdb2
      have hinv2 : DBInv db2 := by
        refine ⟨hinv.prodFresh, hinv.prodNodup, hinv.piFresh, ?_, ?_, ?_, ?_, ?_⟩
        · intro r hr
          rcases List.mem_append.mp hr with h | h
          · have := hinv.parFresh r h; simp only [hdb1]; omega
          · simp only [List.mem_singleton] at h
            subst h
            simp only [hdb1]; omega
        · simp only [hdb1, List.map_append]
          rw [List.nodup_append]
          refine ⟨hinv.parNodup, by simp, ?_⟩
          intro a ha hb
          simp only [List.map_cons, List.map_nil, List.mem_singleton, hpar] at hb
          rcases List.mem_map.mp ha with ⟨r, hr, hreq⟩
          have := hinv.parFresh r hr
          omega
        · simp only [hdb1, List.map_append]
          rw [List.nodup_append]
          refine ⟨hinv.parNamesNodup, by simp, ?_⟩
          intro a ha hb
          simp only [List.map_cons, List.map_nil, List.mem_singleton, hpar] at hb
          subst hb
          exact hnmem ha
        · intro r hr
          rcases List.mem_append.mp hr with h | h
          · exact hinv.ppPiFresh r h
          · simp only [List.mem_singleton] at h
            subst h
            exact hpi
        · intro r hr
          rcases List.mem_append.mp hr with h | h
          · have := hinv.ppParFresh r h; simp only [hdb1]; omega
          · simp only [List.mem_singleton] at h
            subst h
            simp only [hpp0, hpar, hdb1]
            omega
      have hdone2 : ∀ pp ∈ db2.productParameters, pp.product_info = piId →
          ∃ parX ∈ db2.parameters, parX.id = pp.parameter ∧ parX.name ∈ n :: done := by
        intro pp hppmem hpid
        rcases List.mem_append.mp hppmem with h | h
        · rcases hdone pp h hpid with ⟨parX, hmem, hid, hnm⟩
          exact ⟨parX, List.mem_append_left _ hmem, hid, List.mem_cons_of_mem _ hnm⟩
        · simp only [List.mem_singleton] at h
          subst h
          exact ⟨par, List.mem_append_right _ (by simp), rfl, by simp⟩
      have hdisj2 : ∀ m ∈ rest.map Prod.fst, m ∉ n :: done := by
        intro m hm
        rw [List.mem_cons]
        rintro (rfl | hmd)
        · exact hkeys.1 hm
        · exact hdisj m (List.mem_cons_of_mem _ hm) hmd
      obtain ⟨db', hrun, hfr⟩ := ih (n :: done) db2 hinv2 hpi hkeys.2 hdisj2 hdone2
      refine ⟨db', hrun, ?_⟩
      obtain ⟨f1, f2, f3, f4, f5, f6, f7, f8, f9, f10, f11, f12, f13, f14,
        ⟨t, ht⟩, hpn, hinv', ⟨tq, htq, htqall⟩, hexp⟩ := hfr
      refine ⟨f1, f2, f3, f4, f5, f6, f7, f8, f9, f10, f11, f12, f13, f14,
        ⟨par :: t, by simpa [hdb1] using ht⟩, ?_, hinv', ⟨pp0 :: tq, by simpa [hdb2] using htq, ?_⟩, ?_⟩
      · rw [hpn]
        have hc : (parameterNames db).contains n = false := by
          rw [← Bool.not_eq_true, List.elem_iff]; exact hnmem
        simp only [addNames, hc]
        congr 1
        simp [hdb1, hdb2, parameterNames]
      · intro pp hpp
        rcases List.mem_cons.mp hpp with rfl | h
        · rfl
        · exact htqall pp h
      · intro l hl
        have hstep : exportParamsY db2 piId = .ok (l ++ [(n, v)]) := by
          unfold exportParamsY at hl ⊢
          simp only [hdb2, hdb1]
          rw [List.filter_append]
          have hone : ([pp0].filter (fun pp => pp.product_info == piId)) = [pp0] := by
            simp [hpp0]
          rw [hone]
          refine mapE_append ?_ ?_
          · refine mapE_congr hl ?_
            intro pp _ w hw
            cases hfpp : db.parameters.find? (fun p => p.id == pp.parameter) with
            | none => rw [hfpp] at hw; exact absurd hw (by simp)
            | some q =>
              rw [hfpp] at hw
              rw [find?_append_some [par] hfpp]
              exact hw
          · have hfnone : db.parameters.find? (fun p => p.id == pp0.parameter) = none := by
              rw [List.find?_eq_none]
              intro q hq
              have := hinv.parFresh q hq
              simp only [hpp0, hpar, beq_iff_eq]
              omega
            simp only [mapE, find?_append_none [par] hfnone]
            simp [hpp0, hpar]
        have := hexp (l ++ [(n, v)]) hstep
        simpa using this
    | cons par tail =>
      cases tail with
      | nil =>
        -- parameter exists: only the ProductParameter row is created
        have hparmem0 : par ∈ db.parameters.filter (fun p => p.name == n) := by
          show par ∈ findParametersByName db n
          rw [hfp]
          exact List.mem_cons_self par []
        have hparn : par.name = n := beq_iff_eq.mp (List.mem_filter.mp hparmem0).2
        have hparmem : par ∈ db.parameters := (List.mem_filter.mp hparmem0).1
        simp only [createProductParameter, hfp]
        have hchk : (db.productParameters.any
            (fun pp => pp.product_info == piId && pp.parameter == par.id)) = false := by
          rw [Bool.eq_false_iff]
          intro hany
          rcases List.any_eq_true.mp hany with ⟨pp, hppmem, hppeq⟩
          simp only [Bool.and_eq_true, beq_iff_eq] at hppeq
          rcases hdone pp hppmem hppeq.1 with ⟨parX, hmem, hid, hnm⟩
          have hXeq : parX = par :=
            List.inj_on_of_nodup_map hinv.parNodup hmem hparmem (by rw [hid, hppeq.2])
          subst hXeq
          rw [hparn] at hnm
          exact hdisj n (by simp) hnm
        simp only [ppCreate, hchk]
        set pp0 : ProductParameterRow :=
          { id := db.nextProductParameterId, product_info := piId, parameter := par.id,
            value := v } with hpp0
        set db2 : DB := { db with
          productParameters := db.productParameters ++ [pp0],
          nextProductParameterId := db.nextProductParameterId + 1 } with hdb2
        have hinv2 : DBInv db2 := by
          refine ⟨hinv.prodFresh, hinv.prodNodup, hinv.piFresh, hinv.parFresh,
            hinv.parNodup, hinv.parNamesNodup, ?_, ?_⟩
          · intro r hr
            rcases List.mem_append.mp hr with h | h
            · exact hinv.ppPiFresh r h
            · simp only [List.mem_singleton] at h
              subst h
              exact hpi
          · intro r hr
            rcases List.mem_append.mp hr with h | h
            · exact hinv.ppParFresh r h
            · simp only [List.mem_singleton] at h
              subst h
              simp only [hpp0]
              exact hinv.parFresh par hparmem
        have hdone2 : ∀ pp ∈ db2.productParameters, pp.product_info = piId →
            ∃ parX ∈ db2.parameters, parX.id = pp.parameter ∧ parX.name ∈ n :: done := by
          intro pp hppmem hpid
          rcases List.mem_append.mp hppmem with h | h
          · rcases hdone pp h hpid with ⟨parX, hmem, hid, hnm⟩
            exact ⟨parX, hmem, hid, List.mem_cons_of_mem _ hnm⟩
          · simp only [List.mem_singleton] at h
            subst h
            exact ⟨par, hparmem, rfl, by simp [hparn]⟩
        have hdisj2 : ∀ m ∈ rest.map Prod.fst, m ∉ n :: done := by
          intro m hm
          rw [List.mem_cons]
          rintro (rfl | hmd)
          · exact hkeys.1 hm
          · exact hdisj m (List.mem_cons_of_mem _ hm) hmd
        obtain ⟨db', hrun, hfr⟩ := ih (n :: done) db2 hinv2 hpi hkeys.2 hdisj2 hdone2
        refine ⟨db', hrun, ?_⟩
        obtain ⟨f1, f2, f3, f4, f5, f6, f7, f8, f9, f10, f11, f12, f13, f14,
          ⟨t, ht⟩, hpn, hinv', ⟨tq, htq, htqall⟩, hexp⟩ := hfr
        refine ⟨f1, f2, f3, f4, f5, f6, f7, f8, f9, f10, f11, f12, f13, f14,
          ⟨t, by simpa [hdb2] using ht⟩, ?_, hinv',
          ⟨pp0 :: tq, by simpa [hdb2] using htq, ?_⟩, ?_⟩
        · rw [hpn]
          have hc : (parameterNames db).contains n = true := by
            rw [List.elem_iff, ← hparn]
            exact List.mem_map_of_mem _ hparmem
          simp only [addNames, hc, if_true]
          rfl
        · intro pp hpp
          rcases List.mem_cons.mp hpp with rfl | h
          · rfl
          · exact htqall pp h
        · intro l hl
          have hstep : exportParamsY db2 piId = .ok (l ++ [(n, v)]) := by
            unfold exportParamsY at hl ⊢
            simp only [hdb2]
            rw [List.filter_append]
            have hone : ([pp0].filter (fun pp => pp.product_info == piId)) = [pp0] := by
              simp [hpp0]
            rw [hone]
            refine mapE_append hl ?_
            have hfsome : db.parameters.find? (fun p => p.id == pp0.parameter) = some par := by
              have := find?_key_of_mem (f := ParameterRow.id) hinv.parNodup hparmem
              simpa [hpp0] using this
            simp only [mapE, hfsome]
            simp [hparn]
          have := hexp (l ++ [(n, v)]) hstep
          simpa using this
      | cons par2 tail2 =>
        exfalso
        have := filter_key_len_le_one (f := ParameterRow.name) hinv.parNamesNodup n
        rw [show db.parameters.filter (fun x => x.name == n) = par :: par2 :: tail2 from hfp] at this
        simp at this

theorem piCreateAndParams_run (sid : Nat) (g : GoodsItem) (p : ProductRow) (db2 : DB)
    (hinv : DBInv db2)
    (hpname : p.name = g.name) (hpcat : p.category = g.category)
    (hfind : db2.products.find? (fun x => x.id == p.id) = some p)
    (hext : g.id ∉ extIds db2)
    (hnn : g.nonneg)
    (hkeys : (g.parameters.map Prod.fst).Nodup) :
    ∃ db', piCreateAndParams sid (encodeItem g) p db2 = .ok db' ∧
      db'.users = db2.users ∧ db'.shops = db2.shops ∧ db'.categories = db2.categories ∧
      db'.category_shops = db2.category_shops ∧ db'.contacts = db2.contacts ∧
      db'.orders = db2.orders ∧ db'.orderItems = db2.orderItems ∧
      db'.products = db2.products ∧
      db'.nextShopId = db2.nextShopId ∧ db'.nextProductId = db2.nextProductId ∧
      db'.nextOrderId = db2.nextOrderId ∧ db'.nextOrderItemId = db2.nextOrderItemId ∧
      extIds db' = extIds db2 ++ [g.id] ∧
      (∀ pi ∈ db'.productInfos, pi ∈ db2.productInfos ∨ pi.shop = sid) ∧
      (∃ t, db'.productInfos = db2.productInfos ++ t) ∧
      (∀ l, exportGoodsY db2 sid = .ok l → exportGoodsY db' sid = .ok (l ++ [exportItemY g])) ∧
      parameterNames db' = addNames g.parameters (parameterNames db2) ∧
      (∃ t, db'.parameters = db2.parameters ++ t) ∧
      DBInv db' ∧
      (∀ pp ∈ db'.productParameters, pp ∈ db2.productParameters ∨
        ∃ pi ∈ db'.productInfos, pi.shop = sid ∧ pp.product_info = pi.id) := by
  obtain ⟨e1, e2, e3, e4, e5, e6⟩ := encodeItem_get_fields g
  have hcont : ((extIds db2).contains g.id) = false := by
    rw [← Bool.not_eq_true, List.elem_iff]; exact hext
  obtain ⟨hnn1, hnn2, hnn3, hnn4⟩ := hnn
  have hord : (decide (g.id < 0) || decide (g.quantity < 0) ||
      decide (g.price < 0) || decide (g.price_rrc < 0)) = false := by
    simp only [Bool.or_eq_false_iff, decide_eq_false_iff_not, not_lt]
    exact ⟨⟨⟨hnn1, hnn2⟩, hnn3⟩, hnn4⟩
  simp only [piCreateAndParams, e1, e2, e3, e4, e5, e6, hcont, Bool.false_eq_true, if_false,
    hord]
  set pi : ProductInfoRow :=
    { id := db2.nextProductInfoId, model := g.model, external_id := g.id, product := p.id,
      shop := sid, quantity := g.quantity, price := g.price, price_rrc := g.price_rrc }
    with hpi
  set db3 : DB := { db2 with productInfos := db2.productInfos ++ [pi],
                             nextProductInfoId := db2.nextProductInfoId + 1 } with hdb3
  have hinv3 : DBInv db3 := by
    refine ⟨hinv.prodFresh, hinv.prodNodup, ?_, hinv.parFresh, hinv.parNodup,
      hinv.parNamesNodup, ?_, hinv.ppParFresh⟩
    · intro r hr
      rcases List.mem_append.mp hr with h | h
      · have := hinv.piFresh r h; simp only [hdb3]; omega
      · simp only [List.mem_singleton] at h
        subst h
        simp only [hdb3, hpi]
        omega
    · intro r hr
      have := hinv.ppPiFresh r hr
      simp only [hdb3]; omega
  have hdone3 : ∀ pp ∈ db3.productParameters, pp.product_info = pi.id →
      ∃ par ∈ db3.parameters, par.id = pp.parameter ∧ par.name ∈ ([] : List String) := by
    intro pp hpp hpid
    exfalso
    have := hinv.ppPiFresh pp hpp
    simp only [hpi] at hpid
    omega
  have hpilt : pi.id < db3.nextProductInfoId := by simp only [hdb3, hpi]; omega
  obtain ⟨db', hrun, f1, f2, f3, f4, f5, f6, f7, f8, f9, f10, f11, f12, f13, f14,
    ⟨tr, htr⟩, hpn, hinv', ⟨tq, htq, htqall⟩, hexpp⟩ :=
    processParameters_go pi.id g.parameters [] db3 hinv3 hpilt hkeys (by simp) hdone3
  have hPIs : db'.productInfos = db2.productInfos ++ [pi] := by rw [f6]
  have hprod : db'.products = db2.products := by rw [f5]
  have hparams : db'.parameters = db2.parameters ++ tr := by rw [htr]
  have hpps : db'.productParameters = db2.productParameters ++ tq := by rw [htq]
  have hexpnil : exportParamsY db3 pi.id = .ok [] := by
    unfold exportParamsY
    have hfil : db3.productParameters.filter (fun pp => pp.product_info == pi.id) = [] := by
      rw [List.filter_eq_nil_iff]
      intro pp hpp
      have := hinv.ppPiFresh pp hpp
      simp only [hpi, beq_iff_eq]
      omega
    rw [hfil]
    rfl
  have hexppm : exportParamsY db' pi.id = .ok g.parameters := by
    have := hexpp [] hexpnil
    simpa using this
  refine ⟨db', hrun, f1, f2, f3, f4, f7, f8, f9, hprod, f10, f11, f13, f14, ?_, ?_,
    ⟨[pi], hPIs⟩, ?_, ?_, ⟨tr, hparams⟩, hinv', ?_⟩
  · simp only [extIds, hPIs, List.map_append]
    rfl
  · intro x hx
    rw [hPIs] at hx
    rcases List.mem_append.mp hx with h | h
    · exact Or.inl h
    · simp only [List.mem_singleton] at h
      subst h
      exact Or.inr rfl
  · intro l hl
    unfold exportGoodsY at hl ⊢
    rw [hPIs, List.filter_append]
    have hfone : ([pi].filter (fun x => x.shop == sid)) = [pi] := by simp [hpi]
    rw [hfone]
    refine mapE_append ?_ ?_
    · refine mapE_congr hl ?_
      intro x hxmem v hv
      refine exportEntry_stable ⟨[], by simp [hprod]⟩ ⟨tr, hparams⟩ ⟨tq, hpps, ?_⟩ hv
      intro pp hpp
      have hppid := htqall pp hpp
      have hxlt := hinv.piFresh x (List.mem_filter.mp hxmem).1
      rw [hppid]
      simp only [hpi]
      omega
    · have hentry : exportEntry db' pi = .ok (exportItemY g) := by
        unfold exportEntry
        have hfind' : db'.products.find? (fun x => x.id == pi.product) = some p := by
          rw [hprod]
          simpa [hpi] using hfind
        rw [hfind', hexppm]
        simp only [exportItemY, hpname, hpcat, hpi]
      simp only [mapE, hentry]
  · rw [hpn]
    congr 1
  · intro pp hpp
    rw [hpps] at hpp
    rcases List.mem_append.mp hpp with h | h
    · exact Or.inl h
    · refine Or.inr ⟨pi, ?_, rfl, htqall pp h⟩
      rw [hPIs]
      exact List.mem_append_right _ (by simp)

theorem processItemBody_run (sid : Nat) (g : GoodsItem) (db : DB)
    (hinv : DBInv db)
    (hname : findProductsByName db g.name = [] ∨
      ∃ pid, findProductsByName db g.name = [{ id := pid, name := g.name, category := g.category }])
    (hext : g.id ∉ extIds db)
    (hnn : g.nonneg)
    (hkeys : (g.parameters.map Prod.fst).Nodup) :
    ∃ db', processItemBody sid (encodeItem g) g.category db = .ok db' ∧
      db'.users = db.users ∧ db'.shops = db.shops ∧ db'.categories = db.categories ∧
      db'.category_shops = db.category_shops ∧ db'.contacts = db.contacts ∧
      db'.orders = db.orders ∧ db'.orderItems = db.orderItems ∧
      db'.nextShopId = db.nextShopId ∧ db'.nextOrderId = db.nextOrderId ∧
      db'.nextOrderItemId = db.nextOrderItemId ∧
      extIds db' = extIds db ++ [g.id] ∧
      (∀ pi ∈ db'.productInfos, pi ∈ db.productInfos ∨ pi.shop = sid) ∧
      (∃ t, db'.productInfos = db.productInfos ++ t) ∧
      (∀ l, exportGoodsY db sid = .ok l → exportGoodsY db' sid = .ok (l ++ [exportItemY g])) ∧
      parameterNames db' = addNames g.parameters (parameterNames db) ∧
      (∃ t, db'.parameters = db.parameters ++ t) ∧
      DBInv db' ∧
      (∃ pid, findProductsByName db' g.name =
        [{ id := pid, name := g.name, category := g.category }]) ∧
      (∀ m, m ≠ g.name → findProductsByName db' m = findProductsByName db m) ∧
      ((∃ pid, findProductsByName db g.name =
          [{ id := pid, name := g.name, category := g.category }]) → db'.products = db.products) ∧
      (∃ t, db'.products = db.products ++ t) ∧
      (∀ pp ∈ db'.productParameters, pp ∈ db.productParameters ∨
        ∃ pi ∈ db'.productInfos, pi.shop = sid ∧ pp.product_info = pi.id) := by
  simp only [processItemBody, encodeItem_get_name]
  rcases hname with hnil | ⟨pid, hrow⟩
  · -- the product does not exist yet: it is created with the category of the item
    rw [hnil]
    set p : ProductRow := { id := db.nextProductId, name := g.name, category := g.category }
      with hp
    set db2 : DB := { db with products := db.products ++ [p],
                              nextProductId := db.nextProductId + 1 } with hdb2
    have hinv2 : DBInv db2 := by
      refine ⟨?_, ?_, hinv.piFresh, hinv.parFresh, hinv.parNodup, hinv.parNamesNodup,
        hinv.ppPiFresh, hinv.ppParFresh⟩
      · intro r hr
        rcases List.mem_append.mp hr with h | h
        · have := hinv.prodFresh r h; simp only [hdb2]; omega
        · simp only [List.mem_singleton] at h
          subst h
          simp only [hdb2, hp]
          omega
      · simp only [hdb2, List.map_append]
        rw [List.nodup_append]
        refine ⟨hinv.prodNodup, by simp, ?_⟩
        intro a ha hb
        simp only [List.map_cons, List.map_nil, List.mem_singleton, hp] at hb
        rcases List.mem_map.mp ha with ⟨r, hr, hreq⟩
        have := hinv.prodFresh r hr
        omega
    have hfind2 : db2.products.find? (fun x => x.id == p.id) = some p := by
      have hnone : db.products.find? (fun x => x.id == p.id) = none := by
        rw [List.find?_eq_none]
        intro r hr
        have := hinv.prodFresh r hr
        simp only [hp, beq_iff_eq]
        omega
      simp only [hdb2]
      rw [find?_append_none [p] hnone]
      simp
    obtain ⟨db', hrun, f1, f2, f3, f4, f5, f6, f7, fprod, f9, f10, f11, f12, fext, fmem,
      fpis, fexp, fpn, fpar, finv, fpp⟩ :=
      piCreateAndParams_run sid g p db2 hinv2 rfl rfl hfind2 hext hnn hkeys
    refine ⟨db', hrun, f1, f2, f3, f4, f5, f6, f7, f9, f11, f12, fext, fmem, fpis, ?_, fpn,
      fpar, finv, ?_, ?_, ?_, ⟨[p], by rw [fprod]⟩, fpp⟩
    · intro l hl
      refine fexp l ?_
      refine mapE_congr hl ?_
      intro x _ v hv
      exact exportEntry_stable ⟨[p], by simp [hdb2]⟩ ⟨[], by simp⟩ ⟨[], by simp⟩ hv
    · refine ⟨p.id, ?_⟩
      rw [show findProductsByName db' g.name = findProductsByName db2 g.name from by
        unfold findProductsByName; rw [fprod]]
      unfold findProductsByName
      simp only [hdb2]
      rw [List.filter_append]
      have hnil2 : List.filter (fun x => x.name == g.name) db.products = [] := hnil
      rw [hnil2]
      simp [hp]
    · intro m hm
      rw [show findProductsByName db' m = findProductsByName db2 m from by
        unfold findProductsByName; rw [fprod]]
      unfold findProductsByName
      simp only [hdb2]
      rw [List.filter_append]
      have : ([p].filter (fun x => x.name == m)) = [] := by
        simp only [List.filter_eq_nil_iff]
        intro a ha
        simp only [List.mem_singleton] at ha
        subst ha
        simp only [hp, beq_iff_eq]
        exact fun he => hm he.symm
      rw [this, List.append_nil]
    · intro ⟨pidX, hfound⟩
      exact absurd hfound (by simp)
  · -- the product exists with the same category: the row is reused unchanged
    rw [hrow]
    have hrowmem : ({ id := pid, name := g.name, category := g.category } : ProductRow)
        ∈ db.products := by
      have : ({ id := pid, name := g.name, category := g.category } : ProductRow)
          ∈ findProductsByName db g.name := by
        rw [hrow]; exact List.mem_cons_self _ _
      exact (List.mem_filter.mp this).1
    have hfind2 : db.products.find?
        (fun x => x.id == ({ id := pid, name := g.name, category := g.category } : ProductRow).id)
          = some { id := pid, name := g.name, category := g.category } :=
      find?_key_of_mem (f := ProductRow.id) hinv.prodNodup hrowmem
    simp only [beq_self_eq_true, if_true]
    obtain ⟨db', hrun, f1, f2, f3, f4, f5, f6, f7, fprod, f9, f10, f11, f12, fext, fmem,
      fpis, fexp, fpn, fpar, finv, fpp⟩ :=
      piCreateAndParams_run sid g { id := pid, name := g.name, category := g.category } db
        hinv rfl rfl hfind2 hext hnn hkeys
    refine ⟨db', hrun, f1, f2, f3, f4, f5, f6, f7, f9, f11, f12, fext, fmem, fpis, fexp, fpn,
      fpar, finv, ?_, ?_, fun _ => fprod, ⟨[], by simp [fprod]⟩, fpp⟩
    · refine ⟨pid, ?_⟩
      rw [show findProductsByName db' g.name = findProductsByName db g.name from by
        unfold findProductsByName; rw [fprod]]
      exact hrow
    · intro m _
      rw [show findProductsByName db' m = findProductsByName db m from by
        unfold findProductsByName; rw [fprod]]

theorem processItem_encode (sid : Nat) (g : GoodsItem) (db : DB) :
    processItem sid (encodeItem g) db =
      (match findCategories db g.category with
       | [_] => processItemBody sid (encodeItem g) g.category db
       | _ => .ok db) := rfl

theorem processItem_skip (sid : Nat) (g : GoodsItem) (db : DB)
    (h : (findCategories db g.category).length ≠ 1) :
    processItem sid (encodeItem g) db = .ok db := by
  rw [processItem_encode]
  cases hc : findCategories db g.category with
  | nil => rfl
  | cons c tail =>
    cases tail with
    | nil => exact absurd (by rw [hc]; rfl) h
    | cons c2 tail2 => rfl

theorem processItem_kept_eq (sid : Nat) (g : GoodsItem) (db : DB)
    (h : (findCategories db g.category).length = 1) :
    processItem sid (encodeItem g) db = processItemBody sid (encodeItem g) g.category db := by
  rw [processItem_encode]
  cases hc : findCategories db g.category with
  | nil => rw [hc] at h; simp at h
  | cons c tail =>
    cases tail with
    | nil => rfl
    | cons c2 tail2 => rw [hc] at h; simp at h

theorem goodsFold_run (sid : Nat) (gs : List GoodsItem) (db : DB)
    (hinv : DBInv db)
    (hnames : (gs.map GoodsItem.name).Nodup)
    (hprod : ∀ g ∈ gs, findProductsByName db g.name = [] ∨
      ∃ pid, findProductsByName db g.name = [{ id := pid, name := g.name, category := g.category }])
    (hexts : (gs.map GoodsItem.id).Nodup)
    (hextf : ∀ g ∈ gs, g.id ∉ extIds db)
    (hnn : ∀ g ∈ gs, g.nonneg)
    (hkeys : ∀ g ∈ gs, (g.parameters.map Prod.fst).Nodup) :
    ∃ db', goodsFold sid (gs.map encodeItem) db = .ok db' ∧
      db'.users = db.users ∧ db'.shops = db.shops ∧ db'.categories = db.categories ∧
      db'.category_shops = db.category_shops ∧ db'.contacts = db.contacts ∧
      db'.orders = db.orders ∧ db'.orderItems = db.orderItems ∧
      db'.nextShopId = db.nextShopId ∧ db'.nextOrderId = db.nextOrderId ∧
      db'.nextOrderItemId = db.nextOrderItemId ∧
      extIds db' = extIds db ++ (keptBy db.categories gs).map GoodsItem.id ∧
      (∀ pi ∈ db'.productInfos, pi ∈ db.productInfos ∨ pi.shop = sid) ∧
      (∃ t, db'.productInfos = db.productInfos ++ t) ∧
      (∀ l, exportGoodsY db sid = .ok l →
        exportGoodsY db' sid = .ok (l ++ (keptBy db.categories gs).map exportItemY)) ∧
      parameterNames db' = addNamesAll (keptBy db.categories gs) (parameterNames db) ∧
      DBInv db' ∧
      (∀ g ∈ keptBy db.categories gs, ∃ pid, findProductsByName db' g.name =
        [{ id := pid, name := g.name, category := g.category }]) ∧
      (∀ m, m ∉ (keptBy db.categories gs).map GoodsItem.name →
        findProductsByName db' m = findProductsByName db m) ∧
      ((∀ g ∈ keptBy db.categories gs, ∃ pid, findProductsByName db g.name =
          [{ id := pid, name := g.name, category := g.category }]) → db'.products = db.products) ∧
      (∀ pp ∈ db'.productParameters, pp ∈ db.productParameters ∨
        ∃ pi ∈ db'.productInfos, pi.shop = sid ∧ pp.product_info = pi.id) := by
  induction gs generalizing db with
  | nil =>
    refine ⟨db, rfl, rfl, rfl, rfl, rfl, rfl, rfl, rfl, rfl, rfl, rfl, by simp [keptBy],
      fun pi h => Or.inl h, ⟨[], by simp⟩, ?_, by simp [keptBy, addNamesAll], hinv,
      by simp [keptBy], fun m _ => rfl, fun _ => rfl, fun pp h => Or.inl h⟩
    intro l hl
    simpa [keptBy] using hl
  | cons g rest ih =>
    simp only [List.map_cons, List.nodup_cons] at hnames hexts
    have hkcons : keptBy db.categories (g :: rest) =
        (if ((db.categories.filter (fun c => c.id == g.category)).length == 1) = true
         then g :: keptBy db.categories rest else keptBy db.categories rest) := by
      simp only [keptBy, List.filter_cons]
    by_cases hkept : (findCategories db g.category).length = 1
    · -- the category resolves: the item is processed
      have hkb : ((db.categories.filter (fun c => c.id == g.category)).length == 1) = true := by
        exact Nat.beq_eq_true_eq .. |>.mpr hkept
      rw [hkcons, if_pos hkb]
      obtain ⟨db1, hstep, f1, f2, f3, f4, f5, f6, f7, f9, f11, f12, fext, fmem, fpis, fexp,
        fpn, fpar, finv, ⟨pidg, fpost⟩, fother, funch, ⟨tp, fprodapp⟩, fpp⟩ :=
        processItemBody_run sid g db hinv (hprod g (by simp)) (hextf g (by simp))
          (hnn g (by simp)) (hkeys g (by simp))
      have hfoldstep : goodsFold sid ((g :: rest).map encodeItem) db =
          goodsFold sid (rest.map encodeItem) db1 := by
        simp only [List.map_cons, goodsFold, processItem_kept_eq sid g db hkept, hstep]
      have hfpby : ∀ m, findProductsByName db1 m = findProductsByName db m ∨ m = g.name := by
        intro m
        by_cases hm : m = g.name
        · exact Or.inr hm
        · exact Or.inl (fother m hm)
      have hprod1 : ∀ x ∈ rest, findProductsByName db1 x.name = [] ∨
          ∃ pid, findProductsByName db1 x.name =
            [{ id := pid, name := x.name, category := x.category }] := by
        intro x hx
        have hne : x.name ≠ g.name := by
          intro he
          exact hnames.1 (he ▸ List.mem_map_of_mem GoodsItem.name hx)
        rw [fother x.name hne]
        exact hprod x (List.mem_cons_of_mem _ hx)
      have hextf1 : ∀ x ∈ rest, x.id ∉ extIds db1 := by
        intro x hx
        rw [fext, List.mem_append]
        rintro (h | h)
        · exact hextf x (List.mem_cons_of_mem _ hx) h
        · simp only [List.mem_singleton] at h
          exact hexts.1 (h ▸ List.mem_map_of_mem GoodsItem.id hx)
      have hcats1 : db1.categories = db.categories := f3
      obtain ⟨db', hrun, g1, g2, g3, g4, g5, g6, g7, g9, g11, g12, gext, gmem, ⟨tpi, gpis⟩,
        gexp, gpn, ginv, gpost, gother, gunch, gpp⟩ :=
        ih db1 finv hnames.2 hprod1 hexts.2 hextf1
          (fun x hx => hnn x (List.mem_cons_of_mem _ hx))
          (fun x hx => hkeys x (List.mem_cons_of_mem _ hx))
      rw [hcats1] at gext gexp gpn gpost gother gunch
      refine ⟨db', by rw [hfoldstep, hrun], g1.trans f1, g2.trans f2, g3.trans f3,
        g4.trans f4, g5.trans f5, g6.trans f6, g7.trans f7, g9.trans f9, g11.trans f11,
        g12.trans f12, ?_, ?_, ?_, ?_, ?_, ginv, ?_, ?_, ?_, ?_⟩
      · rw [gext, fext]
        simp
      · intro pi hpi
        rcases gmem pi hpi with h | h
        · rcases fmem pi h with h2 | h2
          · exact Or.inl h2
          · exact Or.inr h2
        · exact Or.inr h
      · obtain ⟨t0, ht0⟩ := fpis
        exact ⟨t0 ++ tpi, by rw [gpis, ht0, List.append_assoc]⟩
      · intro l hl
        have h1 := fexp l hl
        have h2 := gexp (l ++ [exportItemY g]) h1
        rw [h2]
        simp
      · rw [gpn, fpn]
        rfl
      · intro x hx
        rcases List.mem_cons.mp hx with rfl | hx2
        · refine ⟨pidg, ?_⟩
          have hgnotin : x.name ∉ (keptBy db.categories rest).map GoodsItem.name := by
            intro hmem
            rcases List.mem_map.mp hmem with ⟨z, hz, hzeq⟩
            have : z ∈ rest := List.mem_of_mem_filter hz
            exact hnames.1 (hzeq ▸ List.mem_map_of_mem GoodsItem.name this)
          rw [gother x.name hgnotin]
          exact fpost
        · exact gpost x hx2
      · intro m hm
        rw [List.map_cons] at hm
        simp only [List.mem_cons, not_or] at hm
        rw [gother m hm.2, fother m hm.1]
      · intro hall
        have hg := hall g (by simp)
        have hp1 : db1.products = db.products := funch hg
        have hfind1 : ∀ x ∈ keptBy db.categories rest, ∃ pid,
            findProductsByName db1 x.name =
              [{ id := pid, name := x.name, category := x.category }] := by
          intro x hx
          have : findProductsByName db1 x.name = findProductsByName db x.name := by
            unfold findProductsByName
            rw [hp1]
          rw [this]
          exact hall x (List.mem_cons_of_mem _ hx)
        exact (gunch hfind1).trans hp1
      · intro pp hpp
        rcases gpp pp hpp with h | h
        · rcases fpp pp h with h2 | h2
          · exact Or.inl h2
          · obtain ⟨pi, hpimem, hshop, hid⟩ := h2
            refine Or.inr ⟨pi, ?_, hshop, hid⟩
            rw [gpis]
            exact List.mem_append_left _ hpimem
        · exact Or.inr h
    · -- the category does not resolve: the item is skipped
      have hkb : ¬ (((db.categories.filter (fun c => c.id == g.category)).length == 1) = true) := by
        intro h
        exact hkept (by rwa [Nat.beq_eq_true_eq] at h)
      rw [hkcons, if_neg hkb]
      have hfoldstep : goodsFold sid ((g :: rest).map encodeItem) db =
          goodsFold sid (rest.map encodeItem) db := by
        simp only [List.map_cons, goodsFold, processItem_skip sid g db hkept]
      obtain ⟨db', hrun, hrest⟩ := ih db hinv hnames.2
        (fun x hx => hprod x (List.mem_cons_of_mem _ hx)) hexts.2
        (fun x hx => hextf x (List.mem_cons_of_mem _ hx))
        (fun x hx => hnn x (List.mem_cons_of_mem _ hx))
        (fun x hx => hkeys x (List.mem_cons_of_mem _ hx))
      exact ⟨db', by rw [hfoldstep, hrun], hrest⟩

/-- Product-table bookkeeping: product keys below the counter and distinct. -/
def ProdInv (db : DB) : Prop :=
  (∀ p ∈ db.products, p.id < db.nextProductId) ∧ (db.products.map ProductRow.id).Nodup

theorem processParameters_ok_inv (piId : Nat) (ps : List (String × Y)) (db db2 : DB)
    (h : processParameters piId ps db = .ok db2) :
    db2.products = db.products ∧ db2.productInfos = db.productInfos ∧
    db2.categories = db.categories ∧ db2.shops = db.shops ∧
    db2.nextProductId = db.nextProductId := by
  induction ps generalizing db with
  | nil =>
    obtain rfl : db = db2 := by injection h
    exact ⟨rfl, rfl, rfl, rfl, rfl⟩
  | cons nv rest ih =>
    obtain ⟨n, v⟩ := nv
    simp only [processParameters] at h
    split at h
    case h_1 => exact absurd h (by simp)
    case h_2 dbx heq =>
      have hstep : dbx.products = db.products ∧ dbx.productInfos = db.productInfos ∧
          dbx.categories = db.categories ∧ dbx.shops = db.shops ∧
          dbx.nextProductId = db.nextProductId := by
        simp only [createProductParameter] at heq
        split at heq
        · simp only [ppCreate] at heq
          split at heq
          · exact absurd heq (by simp)
          · obtain rfl : _ = dbx := by injection heq
            exact ⟨rfl, rfl, rfl, rfl, rfl⟩
        · simp only [ppCreate] at heq
          split at heq
          · exact absurd heq (by simp)
          · obtain rfl : _ = dbx := by injection heq
            exact ⟨rfl, rfl, rfl, rfl, rfl⟩
        · exact absurd heq (by simp)
      obtain ⟨s1, s2, s3, s4, s5⟩ := hstep
      obtain ⟨t1, t2, t3, t4, t5⟩ := ih dbx h
      exact ⟨t1.trans s1, t2.trans s2, t3.trans s3, t4.trans s4, t5.trans s5⟩

theorem piCreateAndParams_ok_inv (sid : Nat) (g : GoodsItem) (p : ProductRow) (dbc db2 : DB)
    (h : piCreateAndParams sid (encodeItem g) p dbc = .ok db2) :
    db2.products = dbc.products ∧ db2.categories = dbc.categories ∧
    db2.shops = dbc.shops ∧ db2.nextProductId = dbc.nextProductId ∧
    (∀ pi ∈ dbc.productInfos, pi ∈ db2.productInfos) ∧
    extIds db2 = extIds dbc ++ [g.id] ∧ g.id ∉ extIds dbc := by
  obtain ⟨e1, e2, e3, e4, e5, e6⟩ := encodeItem_get_fields g
  simp only [piCreateAndParams, e1, e2, e3, e4, e5, e6] at h
  split at h
  case isTrue => exact absurd h (by simp)
  case isFalse hcont =>
    split at h
    case isTrue => exact absurd h (by simp)
    case isFalse hneg =>
      have hfresh : g.id ∉ extIds dbc := by
        intro hmem
        exact hcont (by rw [List.elem_iff]; exact hmem)
      obtain ⟨s1, s2, s3, s4, s5⟩ := processParameters_ok_inv _ _ _ _ h
      refine ⟨s1, s3, s4, s5, ?_, ?_, hfresh⟩
      · intro pi hpi
        rw [s2]
        exact List.mem_append_left _ hpi
      · rw [extIds, s2]
        simp [extIds]

theorem updateProductCategory_filter_name (ps : List ProductRow) (pid : Nat) (cid : Int)
    (m : String) :
    (updateProductCategory ps pid cid).filter (fun r => r.name == m) =
      updateProductCategory (ps.filter (fun r => r.name == m)) pid cid := by
  induction ps with
  | nil => rfl
  | cons r rest ih =>
    by_cases hid : r.id = pid <;> by_cases hm : (r.name == m) = true <;>
      simp [hid, hm, updateProductCategory, List.filter_cons] at ih ⊢ <;> exact ih

theorem updateProductCategory_id_of_absent (l : List ProductRow) (pid : Nat) (cid : Int)
    (h : ∀ r ∈ l, r.id ≠ pid) : updateProductCategory l pid cid = l := by
  induction l with
  | nil => rfl
  | cons r rest ih =>
    simp only [updateProductCategory, List.map_cons]
    have hr : (r.id == pid) = false := beq_false_of_ne (h r (by simp))
    rw [hr]
    simp only [Bool.false_eq_true, if_false]
    have := ih (fun x hx => h x (List.mem_cons_of_mem _ hx))
    simp only [updateProductCategory] at this
    rw [this]

theorem updateProductCategory_ids (l : List ProductRow) (pid : Nat) (cid : Int) :
    (updateProductCategory l pid cid).map ProductRow.id = l.map ProductRow.id := by
  induction l with
  | nil => rfl
  | cons r rest ih =>
    simp only [updateProductCategory, List.map_cons] at ih ⊢
    by_cases hid : (r.id == pid) = true
    · rw [hid]
      simp only [if_true, List.map_cons]
      rw [ih]
    · simp only [Bool.not_eq_true] at hid
      rw [hid]
      simp only [Bool.false_eq_true, if_false, List.map_cons]
      rw [ih]

theorem processItem_ok_inv (sid : Nat) (g : GoodsItem) (db db2 : DB)
    (hpinv : ProdInv db)
    (h : processItem sid (encodeItem g) db = .ok db2) :
    db2.categories = db.categories ∧ db2.shops = db.shops ∧
    (∀ pi ∈ db.productInfos, pi ∈ db2.productInfos) ∧
    ((findCategories db g.category).length = 1 →
      extIds db2 = extIds db ++ [g.id] ∧ g.id ∉ extIds db) ∧
    ProdInv db2 ∧
    (∀ m, m ≠ g.name → findProductsByName db2 m = findProductsByName db m) ∧
    ((findCategories db g.category).length = 1 → ∀ pid c,
      findProductsByName db g.name = [{ id := pid, name := g.name, category := c }] →
      findProductsByName db2 g.name = [{ id := pid, name := g.name, category := g.category }]) ∧
    ((findCategories db g.category).length ≠ 1 → db2 = db) := by
  by_cases hkept : (findCategories db g.category).length = 1
  · rw [processItem_kept_eq sid g db hkept] at h
    simp only [processItemBody, encodeItem_get_name] at h
    cases hfp : findProductsByName db g.name with
    | nil =>
      rw [hfp] at h
      simp only at h
      obtain ⟨s1, s2, s3, s4, s5, s6, s7⟩ := piCreateAndParams_ok_inv sid g _ _ db2 h
      have hprods : db2.products = db.products ++
          [{ id := db.nextProductId, name := g.name, category := g.category }] := s1
      refine ⟨s2, s3, s5, fun _ => ⟨s6, s7⟩, ?_, ?_, ?_, fun hk => absurd hkept hk⟩
      · constructor
        · intro p hp
          rw [hprods] at hp
          rcases List.mem_append.mp hp with hm | hm
          · have := hpinv.1 p hm
            have h4 : db2.nextProductId = db.nextProductId + 1 := s4
            omega
          · simp only [List.mem_singleton] at hm
            subst hm
            have h4 : db2.nextProductId = db.nextProductId + 1 := s4
            show db.nextProductId < db2.nextProductId
            omega
        · rw [hprods, List.map_append]
          rw [List.nodup_append]
          refine ⟨hpinv.2, by simp, ?_⟩
          intro a ha hb
          simp only [List.map_cons, List.map_nil, List.mem_singleton] at hb
          rcases List.mem_map.mp ha with ⟨r, hr, hreq⟩
          have := hpinv.1 r hr
          omega
      · intro m hm
        unfold findProductsByName
        rw [hprods, List.filter_append]
        have : (([{ id := db.nextProductId, name := g.name, category := g.category }] :
            List ProductRow).filter (fun r => r.name == m)) = [] := by
          simp only [List.filter_eq_nil_iff]
          intro a ha
          simp only [List.mem_singleton] at ha
          subst ha
          simp only [beq_iff_eq]
          exact fun he => hm he.symm
        rw [this, List.append_nil]
      · intro _ pid c hc
        exact absurd hc (by simp)
    | cons prow tail =>
      cases tail with
      | nil =>
        rw [hfp] at h
        simp only at h
        have hprowmem : prow ∈ db.products := by
          have : prow ∈ db.products.filter (fun r => r.name == g.name) := by
            show prow ∈ findProductsByName db g.name
            rw [hfp]; exact List.mem_cons_self _ _
          exact (List.mem_filter.mp this).1
        have hprown : prow.name = g.name := by
          have : prow ∈ db.products.filter (fun r => r.name == g.name) := by
            show prow ∈ findProductsByName db g.name
            rw [hfp]; exact List.mem_cons_self _ _
          exact beq_iff_eq.mp (List.mem_filter.mp this).2
        by_cases hcat : (prow.category == g.category) = true
        · rw [if_pos hcat] at h
          obtain ⟨s1, s2, s3, s4, s5, s6, s7⟩ := piCreateAndParams_ok_inv sid g _ _ db2 h
          refine ⟨s2, s3, s5, fun _ => ⟨s6, s7⟩, ?_, ?_, ?_, fun hk => absurd hkept hk⟩
          · constructor
            · intro p hp
              rw [s1] at hp
              have h4 : db2.nextProductId = db.nextProductId := s4
              have := hpinv.1 p hp
              omega
            · rw [show db2.products.map ProductRow.id = db.products.map ProductRow.id by
                rw [s1]]
              exact hpinv.2
          · intro m _
            unfold findProductsByName
            rw [s1]
          · intro _ pid c hc
            have hpc : prow = { id := pid, name := g.name, category := c } := by
              injection hc
            have hcc : c = g.category := by
              have := beq_iff_eq.mp hcat
              rw [hpc] at this
              exact this
            show findProductsByName db2 g.name = _
            have hfp2 : db2.products.filter (fun p => p.name == g.name) = [prow] := by
              rw [s1]
              exact hfp
            unfold findProductsByName
            rw [hfp2, hpc, hcc]
        · rw [if_neg hcat] at h
          obtain ⟨s1, s2, s3, s4, s5, s6, s7⟩ := piCreateAndParams_ok_inv sid g _ _ db2 h
          have hprods : db2.products = updateProductCategory db.products prow.id g.category := s1
          refine ⟨s2, s3, s5, fun _ => ⟨s6, s7⟩, ?_, ?_, ?_, fun hk => absurd hkept hk⟩
          · constructor
            · intro p hp
              rw [hprods] at hp
              have h4 : db2.nextProductId = db.nextProductId := s4
              rw [h4]
              rcases List.mem_map.mp hp with ⟨r, hr, hreq⟩
              have := hpinv.1 r hr
              by_cases h265 : (r.id == prow.id) = true
              · rw [h265] at hreq
                simp only [if_true] at hreq
                subst hreq
                simpa using this
              · simp only [Bool.not_eq_true] at h265
                rw [h265] at hreq
                simp only [Bool.false_eq_true, if_false] at hreq
                subst hreq
                exact this
            · rw [hprods, updateProductCategory_ids]
              exact hpinv.2
          · intro m hm
            unfold findProductsByName
            rw [hprods, updateProductCategory_filter_name]
            refine updateProductCategory_id_of_absent _ _ _ ?_
            intro r hr
            have hrmem : r ∈ db.products := (List.mem_filter.mp hr).1
            have hrname : r.name = m := beq_iff_eq.mp (List.mem_filter.mp hr).2
            intro hre
            have : r = prow := List.inj_on_of_nodup_map hpinv.2 hrmem hprowmem hre
            subst this
            rw [hprown] at hrname
            exact hm hrname.symm
          · intro _ pid c hc
            have hpc : prow = { id := pid, name := g.name, category := c } := by
              injection hc
            show findProductsByName db2 g.name = _
            have hfil : db.products.filter (fun p => p.name == g.name) = [prow] := hfp
            unfold findProductsByName
            rw [hprods, updateProductCategory_filter_name, hfil]
            simp only [updateProductCategory, List.map_cons, List.map_nil, beq_self_eq_true,
              if_true, hpc]
      | cons p2 t2 =>
        rw [hfp] at h
        exact absurd h (by simp)
  · rw [processItem_skip sid g db hkept] at h
    obtain rfl : db = db2 := by injection h
    exact ⟨rfl, rfl, fun pi hpi => hpi, fun hk => absurd hk hkept, hpinv, fun m _ => rfl,
      fun hk => absurd hk hkept, fun _ => rfl⟩

theorem processItem_conflict (sid : Nat) (g : GoodsItem) (db : DB)
    (hpinv : ProdInv db)
    (hkept : (findCategories db g.category).length = 1)
    (he : g.id ∈ extIds db) :
    ∀ db2, processItem sid (encodeItem g) db ≠ .ok db2 := by
  intro db2 hok
  obtain ⟨-, -, -, i4, -⟩ := processItem_ok_inv sid g db db2 hpinv hok
  exact (i4 hkept).2 he

theorem goodsFold_conflict (sid : Nat) (gs : List GoodsItem) (db : DB) (e : Int)
    (hpinv : ProdInv db)
    (hpi : e ∈ extIds db)
    (hg : ∃ g ∈ gs, g.id = e ∧ (findCategories db g.category).length = 1) :
    ∀ db2, goodsFold sid (gs.map encodeItem) db ≠ .ok db2 := by
  induction gs generalizing db with
  | nil =>
    obtain ⟨g, hmem, -⟩ := hg
    cases hmem
  | cons x rest ih =>
    intro db2
    simp only [List.map_cons, goodsFold]
    cases hx : processItem sid (encodeItem x) db with
    | error err => simp
    | ok dbx =>
      simp only
      obtain ⟨g, hmem, hge, hgk⟩ := hg
      rcases List.mem_cons.mp hmem with heq | hmem2
      · subst heq
        subst hge
        exact absurd hx (processItem_conflict sid g db hpinv hgk hpi dbx)
      · obtain ⟨i1, i2, i3, i4, i5, i6, i7, i8⟩ := processItem_ok_inv sid x db dbx hpinv hx
        have hpix : e ∈ extIds dbx := by
          by_cases hkx2 : (findCategories db x.category).length = 1
          · rw [(i4 hkx2).1]
            exact List.mem_append_left _ hpi
          · rw [i8 hkx2]
            exact hpi
        have hkx : (findCategories dbx g.category).length = 1 := by
          unfold findCategories
          rw [i1]
          exact hgk
        exact ih dbx i5 hpix ⟨g, hmem2, hge, hkx⟩ db2

theorem goodsFold_preserve (sid : Nat) (n : String) (row : ProductRow) (gs : List GoodsItem)
    (db : DB)
    (hpinv : ProdInv db)
    (huniq : ∀ x ∈ gs, x.name = n → x.category = row.category)
    (hrow : findProductsByName db n = [row]) (hrown : row.name = n) :
    ∀ db2, goodsFold sid (gs.map encodeItem) db = .ok db2 →
      findProductsByName db2 n = [row] ∧ (∀ pi ∈ db.productInfos, pi ∈ db2.productInfos) := by
  induction gs generalizing db with
  | nil =>
    intro db2 h
    obtain rfl : db = db2 := by injection h
    exact ⟨hrow, fun pi hpi => hpi⟩
  | cons x rest ih =>
    intro db2 h
    simp only [List.map_cons, goodsFold] at h
    cases hx : processItem sid (encodeItem x) db with
    | error err => rw [hx] at h; exact absurd h (by simp)
    | ok dbx =>
      rw [hx] at h
      simp only at h
      obtain ⟨i1, i2, i3, i4, i5, i6, i7, i8⟩ := processItem_ok_inv sid x db dbx hpinv hx
      by_cases hxn : x.name = n
      · subst hxn
        have hxcat : x.category = row.category := huniq x (by simp) rfl
        have hfx : findProductsByName dbx x.name = [row] := by
          by_cases hk : (findCategories db x.category).length = 1
          · have hr2 : findProductsByName db x.name =
                [{ id := row.id, name := x.name, category := row.category }] := by
              rw [hrow]
              congr 1
              cases row
              simp only at hrown ⊢
              rw [hrown]
            have h7 := i7 hk row.id row.category hr2
            rw [h7]
            congr 1
            cases row
            simp only at hrown hxcat ⊢
            rw [hrown, ← hxcat]
          · rw [i8 hk]
            exact hrow
        obtain ⟨c1, c2⟩ := ih dbx i5
          (fun z hz hzn => huniq z (List.mem_cons_of_mem _ hz) hzn) hfx db2 h
        exact ⟨c1, fun pi hpi => c2 pi (i3 pi hpi)⟩
      · have hfx : findProductsByName dbx n = [row] := by
          rw [i6 n (fun he => hxn he.symm)]
          exact hrow
        obtain ⟨c1, c2⟩ := ih dbx i5
          (fun z hz hzn => huniq z (List.mem_cons_of_mem _ hz) hzn) hfx db2 h
        exact ⟨c1, fun pi hpi => c2 pi (i3 pi hpi)⟩

theorem goodsFold_reassign (sid : Nat) (g0 : GoodsItem) (p0 : ProductRow) (gs : List GoodsItem)
    (db : DB)
    (hpinv : ProdInv db)
    (hg0 : g0 ∈ gs)
    (huniq : ∀ x ∈ gs, x.name = g0.name → x = g0)
    (hrow : findProductsByName db g0.name = [p0]) (hp0n : p0.name = g0.name)
    (hkept : (findCategories db g0.category).length = 1) :
    ∀ db2, goodsFold sid (gs.map encodeItem) db = .ok db2 →
      findProductsByName db2 g0.name = [{ p0 with category := g0.category }] ∧
      (∀ pi ∈ db.productInfos, pi ∈ db2.productInfos) := by
  induction gs generalizing db p0 with
  | nil => cases hg0
  | cons x rest ih =>
    intro db2 h
    simp only [List.map_cons, goodsFold] at h
    cases hx : processItem sid (encodeItem x) db with
    | error err => rw [hx] at h; exact absurd h (by simp)
    | ok dbx =>
      rw [hx] at h
      simp only at h
      obtain ⟨i1, i2, i3, i4, i5, i6, i7, i8⟩ := processItem_ok_inv sid x db dbx hpinv hx
      by_cases hxn : x.name = g0.name
      · have hxg : x = g0 := huniq x (by simp) hxn
        subst hxg
        have hr2 : findProductsByName db x.name =
            [{ id := p0.id, name := x.name, category := p0.category }] := by
          rw [hrow]
          congr 1
          cases p0
          simp only at hp0n ⊢
          rw [hp0n]
        have hfx : findProductsByName dbx x.name =
            [{ id := p0.id, name := x.name, category := x.category }] :=
          i7 hkept p0.id p0.category hr2
        have hfx2 : findProductsByName dbx x.name = [{ p0 with category := x.category }] := by
          rw [hfx]
          congr 1
          cases p0
          simp only at hp0n ⊢
          rw [hp0n]
        have hrown2 : ({ p0 with category := x.category } : ProductRow).name = x.name := hp0n
        obtain ⟨c1, c2⟩ := goodsFold_preserve sid x.name { p0 with category := x.category }
          rest dbx i5
          (fun z hz hzn => by rw [huniq z (List.mem_cons_of_mem _ hz) hzn])
          hfx2 hrown2 db2 h
        exact ⟨c1, fun pi hpi => c2 pi (i3 pi hpi)⟩
      · have hg0r : g0 ∈ rest := by
          rcases List.mem_cons.mp hg0 with heq | hr
          · exact absurd (congrArg GoodsItem.name heq.symm) hxn
          · exact hr
        have hfx : findProductsByName dbx g0.name = [p0] := by
          rw [i6 g0.name (fun he => hxn he.symm)]
          exact hrow
        have hkx : (findCategories dbx g0.category).length = 1 := by
          unfold findCategories
          rw [i1]
          exact hkept
        obtain ⟨c1, c2⟩ := ih p0 dbx i5 hg0r
          (fun z hz hzn => huniq z (List.mem_cons_of_mem _ hz) hzn) hfx hp0n hkx db2 h
        exact ⟨c1, fun pi hpi => c2 pi (i3 pi hpi)⟩

theorem encodeCat_gets (c : CategoryRow) :
    (encodeCat c).get? "id" = some (.i c.id) ∧ (encodeCat c).get? "name" = some (.s c.name) :=
  ⟨rfl, rfl⟩

theorem catsPhase_create (cats : List CategoryRow) (db : DB)
    (hnodup : (cats.map CategoryRow.id).Nodup)
    (hfresh : ∀ c ∈ cats, findCategories db c.id = []) :
    catsPhase (cats.map encodeCat) db = .ok { db with categories := db.categories ++ cats } := by
  induction cats generalizing db with
  | nil =>
    simp only [List.map_nil, List.append_nil]
    rfl
  | cons c rest ih =>
    simp only [List.map_cons, List.nodup_cons] at hnodup
    obtain ⟨g1, g2⟩ := encodeCat_gets c
    simp only [List.map_cons, catsPhase, g1, g2, hfresh c (by simp)]
    have hfresh2 : ∀ x ∈ rest, findCategories
        { db with categories := db.categories ++ [({ id := c.id, name := c.name } : CategoryRow)] }
          x.id = [] := by
      intro x hx
      unfold findCategories
      simp only [List.filter_append]
      have h1 : List.filter (fun y => y.id == x.id) db.categories = [] := hfresh x (List.mem_cons_of_mem _ hx)
      have h2 : List.filter (fun y => y.id == x.id)
          [({ id := c.id, name := c.name } : CategoryRow)] = [] := by
        simp only [List.filter_eq_nil_iff]
        intro a ha
        simp only [List.mem_singleton] at ha
        subst ha
        simp only [beq_iff_eq]
        intro he
        exact hnodup.1 (he ▸ List.mem_map_of_mem CategoryRow.id hx)
      rw [h1, h2]
      rfl
    rw [ih _ hnodup.2 hfresh2]
    congr 1
    simp

theorem catsPhase_found (cats : List CategoryRow) (db : DB)
    (hpresent : ∀ c ∈ cats, (findCategories db c.id).length = 1) :
    catsPhase (cats.map encodeCat) db = .ok db := by
  induction cats with
  | nil => rfl
  | cons c rest ih =>
    obtain ⟨g1, g2⟩ := encodeCat_gets c
    have hlen := hpresent c (by simp)
    simp only [List.map_cons, catsPhase, g1, g2]
    cases hfc : findCategories db c.id with
    | nil => rw [hfc] at hlen; simp at hlen
    | cons y tail =>
      cases tail with
      | nil => exact ih (fun x hx => hpresent x (List.mem_cons_of_mem _ hx))
      | cons y2 t2 => rw [hfc] at hlen; simp at hlen

theorem catsPhase_ok_inv (cats : List CategoryRow) (db db2 : DB)
    (h : catsPhase (cats.map encodeCat) db = .ok db2) :
    db2.products = db.products ∧ db2.productInfos = db.productInfos ∧
    db2.shops = db.shops ∧ db2.users = db.users ∧
    db2.parameters = db.parameters ∧ db2.productParameters = db.productParameters ∧
    db2.orders = db.orders ∧ db2.orderItems = db.orderItems ∧
    db2.nextProductId = db.nextProductId ∧ db2.nextProductInfoId = db.nextProductInfoId ∧
    db2.nextShopId = db.nextShopId ∧ db2.contacts = db.contacts ∧
    db2.category_shops = db.category_shops ∧
    (∀ x, (findCategories db x).length = 1 → findCategories db2 x = findCategories db x) := by
  induction cats generalizing db with
  | nil =>
    obtain rfl : db = db2 := by injection h
    exact ⟨rfl, rfl, rfl, rfl, rfl, rfl, rfl, rfl, rfl, rfl, rfl, rfl, rfl, fun _ _ => rfl⟩
  | cons c rest ih =>
    obtain ⟨g1, g2⟩ := encodeCat_gets c
    simp only [List.map_cons, catsPhase, g1, g2] at h
    cases hfc : findCategories db c.id with
    | nil =>
      rw [hfc] at h
      simp only at h
      obtain ⟨s1, s2, s3, s4, s5, s6, s7, s8, s9, s10, s11, s12, s13, s14⟩ := ih _ h
      refine ⟨s1, s2, s3, s4, s5, s6, s7, s8, s9, s10, s11, s12, s13, ?_⟩
      intro x hx
      have hcx : c.id ≠ x := by
        intro he
        rw [← he] at hx
        rw [hfc] at hx
        simp at hx
      have hpres : findCategories
          { db with categories := db.categories ++ [({ id := c.id, name := c.name } : CategoryRow)] }
            x = findCategories db x := by
        unfold findCategories
        simp only [List.filter_append]
        have h2 : List.filter (fun y => y.id == x)
            [({ id := c.id, name := c.name } : CategoryRow)] = [] := by
          simp only [List.filter_eq_nil_iff]
          intro a ha
          simp only [List.mem_singleton] at ha
          subst ha
          simp only [beq_iff_eq]
          exact hcx
        rw [h2]
        simp
      have hx2 : (findCategories { db with categories := db.categories ++
          [({ id := c.id, name := c.name } : CategoryRow)] } x).length = 1 := by
        rw [hpres]; exact hx
      rw [s14 x hx2, hpres]
    | cons y tail =>
      cases tail with
      | nil =>
        rw [hfc] at h
        simp only at h
        exact ih _ h
      | cons y2 t2 =>
        rw [hfc] at h
        exact absurd h (by simp)

theorem deleteShop_frames (db : DB) (sid : Nat) :
    (deleteShopProductInfos db sid).products = db.products ∧
    (deleteShopProductInfos db sid).categories = db.categories ∧
    (deleteShopProductInfos db sid).shops = db.shops ∧
    (deleteShopProductInfos db sid).users = db.users ∧
    (deleteShopProductInfos db sid).parameters = db.parameters ∧
    (deleteShopProductInfos db sid).nextProductId = db.nextProductId ∧
    (∀ pi ∈ db.productInfos, pi.shop ≠ sid → pi ∈ (deleteShopProductInfos db sid).productInfos) ∧
    (∀ pi ∈ (deleteShopProductInfos db sid).productInfos, pi ∈ db.productInfos) := by
  refine ⟨rfl, rfl, rfl, rfl, rfl, rfl, ?_, ?_⟩
  · intro pi hpi hne
    simp only [deleteShopProductInfos]
    rw [List.mem_filter]
    refine ⟨hpi, ?_⟩
    simp only [Bool.not_eq_eq_eq_not, Bool.not_true, beq_eq_false_iff_ne]
    exact hne
  · intro pi hpi
    exact (List.mem_filter.mp hpi).1

theorem deleteShop_empty (db : DB) (sid : Nat)
    (h1 : db.productInfos = []) (h2 : db.productParameters = []) (h3 : db.orderItems = []) :
    deleteShopProductInfos db sid = db := by
  unfold deleteShopProductInfos
  cases db
  simp only at h1 h2 h3
  subst h1; subst h2; subst h3
  rfl

theorem deleteShop_all (db : DB) (sid : Nat)
    (hall : ∀ pi ∈ db.productInfos, pi.shop = sid)
    (hpp : ∀ pp ∈ db.productParameters, ∃ pi ∈ db.productInfos, pp.product_info = pi.id)
    (hoi : db.orderItems = []) :
    deleteShopProductInfos db sid =
      { db with productInfos := [], productParameters := [], orderItems := [] } := by
  have hfil : db.productInfos.filter (fun pi => pi.shop == sid) = db.productInfos := by
    rw [List.filter_eq_self]
    intro pi hpi
    simp only [beq_iff_eq]
    exact hall pi hpi
  have hpinil : db.productInfos.filter (fun pi => !(pi.shop == sid)) = [] := by
    rw [List.filter_eq_nil_iff]
    intro pi hpi
    simp only [Bool.not_eq_eq_eq_not, Bool.not_true, beq_eq_false_iff_ne]
    intro hne
    exact hne (hall pi hpi)
  have hppnil : db.productParameters.filter
      (fun pp => !((db.productInfos.map (fun pi => pi.id)).contains pp.product_info)) = [] := by
    rw [List.filter_eq_nil_iff]
    intro pp hppm
    obtain ⟨pi, hpim, hpid⟩ := hpp pp hppm
    have hc : (db.productInfos.map (fun x => x.id)).contains pp.product_info = true := by
      rw [List.elem_iff, hpid]
      exact List.mem_map_of_mem _ hpim
    rw [hc]
    simp
  have hoinl : db.orderItems.filter
      (fun oi => !((db.productInfos.map (fun pi => pi.id)).contains oi.product_info)) = [] := by
    rw [hoi]
    rfl
  unfold deleteShopProductInfos
  simp only [hfil, hpinil, hppnil, hoinl]

theorem addNames_mem (ps : List (String × Y)) (acc : List String) (a : String)
    (h : a ∈ acc) : a ∈ addNames ps acc := by
  induction ps generalizing acc with
  | nil => exact h
  | cons p rest ih =>
    obtain ⟨n, v⟩ := p
    simp only [addNames]
    split
    · exact ih acc h
    · exact ih _ (List.mem_append_left _ h)

theorem addNames_key_mem (ps : List (String × Y)) (n : String) (v : Y)
    (h : (n, v) ∈ ps) : ∀ acc, n ∈ addNames ps acc := by
  induction ps with
  | nil => cases h
  | cons p rest ih =>
    intro acc
    obtain ⟨m, w⟩ := p
    rcases List.mem_cons.mp h with heq | hmem
    · injection heq with h1 h2
      subst h1
      simp only [addNames]
      split
      case isTrue hc => exact addNames_mem rest acc n (List.elem_iff.mp hc)
      case isFalse hc => exact addNames_mem rest _ n (List.mem_append_right _ (by simp))
    · simp only [addNames]
      split <;> exact ih hmem _

theorem addNames_id_of_mem (ps : List (String × Y)) (acc : List String)
    (h : ∀ p ∈ ps, p.1 ∈ acc) : addNames ps acc = acc := by
  induction ps with
  | nil => rfl
  | cons p rest ih =>
    obtain ⟨n, v⟩ := p
    have hn : n ∈ acc := h (n, v) (by simp)
    simp only [addNames]
    rw [if_pos (List.elem_iff.mpr hn)]
    exact ih (fun q hq => h q (List.mem_cons_of_mem _ hq))

theorem addNamesAll_mem (gs : List GoodsItem) (acc : List String) (a : String)
    (h : a ∈ acc) : a ∈ addNamesAll gs acc := by
  induction gs generalizing acc with
  | nil => exact h
  | cons g rest ih =>
    simp only [addNamesAll]
    exact ih _ (addNames_mem g.parameters acc a h)

theorem addNamesAll_key_mem (gs : List GoodsItem) (g : GoodsItem) (n : String) (v : Y)
    (hg : g ∈ gs) (hp : (n, v) ∈ g.parameters) : ∀ acc, n ∈ addNamesAll gs acc := by
  induction gs with
  | nil => cases hg
  | cons x rest ih =>
    intro acc
    simp only [addNamesAll]
    rcases List.mem_cons.mp hg with heq | hmem
    · subst heq
      exact addNamesAll_mem rest _ n (addNames_key_mem g.parameters n v hp _)
    · exact ih hmem _

theorem addNamesAll_id_of_mem (gs : List GoodsItem) (acc : List String)
    (h : ∀ g ∈ gs, ∀ p ∈ g.parameters, p.1 ∈ acc) : addNamesAll gs acc = acc := by
  induction gs with
  | nil => rfl
  | cons g rest ih =>
    simp only [addNamesAll]
    rw [addNames_id_of_mem g.parameters acc (h g (by simp))]
    exact ih (fun x hx => h x (List.mem_cons_of_mem _ hx))

theorem addNamesAll_idem (gs : List GoodsItem) :
    addNamesAll gs (addNamesAll gs []) = addNamesAll gs [] :=
  addNamesAll_id_of_mem gs _ (fun g hg p hp => addNamesAll_key_mem gs g p.1 p.2 hg hp [])

theorem filter_id_self {f : α → β} [DecidableEq β] {l : List α} (hn : (l.map f).Nodup)
    {a : α} (ha : a ∈ l) : l.filter (fun x => f x == f a) = [a] := by
  have hmem : a ∈ l.filter (fun x => f x == f a) := by
    rw [List.mem_filter]
    exact ⟨ha, by simp⟩
  have hlen := filter_key_len_le_one hn (f a)
  cases hl : l.filter (fun x => f x == f a) with
  | nil => rw [hl] at hmem; cases hmem
  | cons x xs =>
    rw [hl] at hmem hlen
    cases xs with
    | nil =>
      obtain rfl := List.mem_singleton.mp hmem
      rfl
    | cons y ys => simp at hlen

theorem do_import_steps (uid : Nat) (d : Doc) (db : DB)
    (huser : db.users.any (fun u => u.id == uid && u.user_type == "shop") = true) :
    (db.shops.filter (fun sh => sh.name == d.shop) = [] →
      do_import true true (.ok (encodeDoc d)) (some uid) db =
        importGoodsPhase db.nextShopId (encodeDoc d)
          { db with
            shops := db.shops ++ [{ id := db.nextShopId, name := d.shop, user := some uid }],
            nextShopId := db.nextShopId + 1 }) ∧
    (∀ sh, db.shops.filter (fun s => s.name == d.shop) = [sh] → sh.user = some uid →
      do_import true true (.ok (encodeDoc d)) (some uid) db =
        importGoodsPhase sh.id (encodeDoc d) db) := by
  obtain ⟨t0, t1, t2, t3⟩ := encodeDoc_tops d
  constructor
  · intro hnone
    unfold do_import
    simp only [huser, Bool.not_true, Bool.false_eq_true, if_false, ite_false, encodeDoc]
    rw [show ((Y.map [("shop", .s d.shop), ("categories", .arr (d.categories.map encodeCat)),
        ("goods", .arr (d.goods.map encodeItem))]) = encodeDoc d) from rfl]
    simp only [t0, t1, hnone]
  · intro sh hone hu
    unfold do_import
    simp only [huser, Bool.not_true, Bool.false_eq_true, if_false, ite_false, encodeDoc]
    rw [show ((Y.map [("shop", .s d.shop), ("categories", .arr (d.categories.map encodeCat)),
        ("goods", .arr (d.goods.map encodeItem))]) = encodeDoc d) from rfl]
    simp only [t0, t1, hone, hu, beq_self_eq_true, if_true, ite_true]

theorem importGoodsPhase_run (sid : Nat) (d : Doc) (db db2 : DB)
    (hcats : catsPhase (d.categories.map encodeCat) db = .ok db2) :
    (∀ db4, goodsFold sid (d.goods.map encodeItem) (deleteShopProductInfos db2 sid) = .ok db4 →
      importGoodsPhase sid (encodeDoc d) db = (.ok, db4)) ∧
    (∀ e, goodsFold sid (d.goods.map encodeItem) (deleteShopProductInfos db2 sid) = .error e →
      importGoodsPhase sid (encodeDoc d) db = (.fatalError e, db2)) := by
  obtain ⟨t0, t1, t2, t3⟩ := encodeDoc_tops d
  constructor
  · intro db4 hg
    unfold importGoodsPhase
    simp only [t2, hcats, t3, hg]
  · intro e hg
    unfold importGoodsPhase
    simp only [t2, hcats, t3, hg]

theorem do_import_clean (uid : Nat) (us : List UserRow) (d : Doc)
    (huser : us.any (fun u => u.id == uid && u.user_type == "shop") = true)
    (hwf : WellFormedDoc d) :
    ∃ db1, do_import true true (.ok (encodeDoc d)) (some uid) (initDB us) = (.ok, db1) ∧
      db1.users = us ∧
      db1.shops = [{ id := 1, name := d.shop, user := some uid }] ∧
      db1.categories = d.categories ∧
      db1.category_shops = [] ∧
      db1.contacts = [] ∧ db1.orders = [] ∧ db1.orderItems = [] ∧
      db1.nextShopId = 2 ∧
      extIds db1 = (keptBy d.categories d.goods).map GoodsItem.id ∧
      (∀ pi ∈ db1.productInfos, pi.shop = 1) ∧
      exportGoodsY db1 1 = .ok ((keptBy d.categories d.goods).map exportItemY) ∧
      parameterNames db1 = addNamesAll (keptBy d.categories d.goods) [] ∧
      DBInv db1 ∧
      (∀ g ∈ keptBy d.categories d.goods, ∃ pid, findProductsByName db1 g.name =
        [{ id := pid, name := g.name, category := g.category }]) ∧
      (∀ m, m ∉ (keptBy d.categories d.goods).map GoodsItem.name →
        findProductsByName db1 m = []) ∧
      (∀ pp ∈ db1.productParameters, ∃ pi ∈ db1.productInfos, pp.product_info = pi.id) := by
  obtain ⟨hcreate, -⟩ := do_import_steps uid d (initDB us) huser
  have heq1 : do_import true true (.ok (encodeDoc d)) (some uid) (initDB us) =
      importGoodsPhase 1 (encodeDoc d)
        { initDB us with shops := [{ id := 1, name := d.shop, user := some uid }],
                         nextShopId := 2 } :=
    hcreate rfl
  have hcats : catsPhase (d.categories.map encodeCat)
      { initDB us with shops := [{ id := 1, name := d.shop, user := some uid }],
                       nextShopId := 2 } =
      .ok { initDB us with shops := [{ id := 1, name := d.shop, user := some uid }],
                           nextShopId := 2, categories := d.categories } :=
    catsPhase_create d.categories _ hwf.2.2.2.2 (fun c hc => rfl)
  have hinv0 : DBInv { initDB us with
      shops := [{ id := 1, name := d.shop, user := some uid }],
      nextShopId := 2, categories := d.categories } :=
    ⟨fun p hp => (nomatch hp), List.nodup_nil, fun r hr => (nomatch hr),
     fun r hr => (nomatch hr), List.nodup_nil, List.nodup_nil,
     fun r hr => (nomatch hr), fun r hr => (nomatch hr)⟩
  obtain ⟨db1, hfold, c1, c2, c3, c4, c5, c6, c7, c8, c9, c10, c11, c12, c13, c14, c15,
      c16, c17, c18, c19, c20⟩ :=
    goodsFold_run 1 d.goods
      { initDB us with shops := [{ id := 1, name := d.shop, user := some uid }],
                       nextShopId := 2, categories := d.categories }
      hinv0 hwf.1 (fun g hg => Or.inl rfl) hwf.2.1
      (fun g hg h => nomatch h)
      hwf.2.2.1 hwf.2.2.2.1
  have hfold2 : goodsFold 1 (d.goods.map encodeItem)
      (deleteShopProductInfos
        { initDB us with shops := [{ id := 1, name := d.shop, user := some uid }],
                         nextShopId := 2, categories := d.categories } 1) = .ok db1 := by
    rw [deleteShop_empty _ 1 rfl rfl rfl]
    exact hfold
  have hrun := (importGoodsPhase_run 1 d _ _ hcats).1 db1 hfold2
  refine ⟨db1, heq1.trans hrun, c1, c2, c3, c4, c5, c6, c7, c8, c11, ?_, c14 [] rfl, c15,
    c16, c17, ?_, ?_⟩
  · exact fun pi hpi => (c12 pi hpi).resolve_left (fun hm => nomatch hm)
  · exact fun m hm => c18 m hm
  · intro pp hpp
    rcases c20 pp hpp with hm | ⟨pi, hpi, hsh, hid⟩
    · exact absurd hm (fun hx => nomatch hx)
    · exact ⟨pi, hpi, hid⟩

theorem do_import_again (uid : Nat) (d : Doc) (db1 : DB)
    (hwf : WellFormedDoc d)
    (huser : db1.users.any (fun u => u.id == uid && u.user_type == "shop") = true)
    (hshop : db1.shops = [{ id := 1, name := d.shop, user := some uid }])
    (hcats1 : db1.categories = d.categories)
    (hoi : db1.orderItems = [])
    (hpish : ∀ pi ∈ db1.productInfos, pi.shop = 1)
    (hpps : ∀ pp ∈ db1.productParameters, ∃ pi ∈ db1.productInfos, pp.product_info = pi.id)
    (hinv : DBInv db1)
    (hpar1 : parameterNames db1 = addNamesAll (keptBy d.categories d.goods) [])
    (hkeptprod : ∀ g ∈ keptBy d.categories d.goods, ∃ pid, findProductsByName db1 g.name =
      [{ id := pid, name := g.name, category := g.category }])
    (hnameabs : ∀ m, m ∉ (keptBy d.categories d.goods).map GoodsItem.name →
      findProductsByName db1 m = []) :
    ∃ db2, do_import true true (.ok (encodeDoc d)) (some uid) db1 = (.ok, db2) ∧
      db2.categories = d.categories ∧
      parameterNames db2 = addNamesAll (keptBy d.categories d.goods) [] ∧
      exportGoodsY db2 1 = .ok ((keptBy d.categories d.goods).map exportItemY) ∧
      extIds db2 = (keptBy d.categories d.goods).map GoodsItem.id ∧
      (∀ pi ∈ db2.productInfos, pi.shop = 1) := by
  obtain ⟨-, hfound⟩ := do_import_steps uid d db1 huser
  have hfilter : db1.shops.filter (fun s => s.name == d.shop) =
      [{ id := 1, name := d.shop, user := some uid }] := by
    rw [hshop]
    simp
  have heq1 : do_import true true (.ok (encodeDoc d)) (some uid) db1 =
      importGoodsPhase 1 (encodeDoc d) db1 :=
    hfound { id := 1, name := d.shop, user := some uid } hfilter rfl
  have hcats : catsPhase (d.categories.map encodeCat) db1 = .ok db1 := by
    refine catsPhase_found d.categories db1 ?_
    intro c hc
    have : findCategories db1 c.id = [c] := by
      show db1.categories.filter (fun x => x.id == c.id) = [c]
      rw [hcats1]
      exact filter_id_self hwf.2.2.2.2 hc
    rw [this]
    rfl
  have hdel : deleteShopProductInfos db1 1 = { db1 with productInfos := [], productParameters := [], orderItems := [] } :=
    deleteShop_all db1 1 hpish hpps hoi
  have hinvD : DBInv ({ db1 with productInfos := [], productParameters := [], orderItems := [] } : DB) :=
    ⟨hinv.prodFresh, hinv.prodNodup, fun r hr => (nomatch hr), hinv.parFresh,
     hinv.parNodup, hinv.parNamesNodup, fun r hr => (nomatch hr), fun r hr => (nomatch hr)⟩
  have hkeptD : keptBy ({ db1 with productInfos := [], productParameters := [], orderItems := [] } : DB).categories d.goods = keptBy d.categories d.goods := by
    show keptBy db1.categories d.goods = keptBy d.categories d.goods
    rw [hcats1]
  have hsubkept : ∀ g ∈ keptBy d.categories d.goods, g ∈ d.goods :=
    fun g hg => List.mem_of_mem_filter hg
  have hprod : ∀ g ∈ d.goods,
      findProductsByName ({ db1 with productInfos := [], productParameters := [], orderItems := [] } : DB) g.name = [] ∨
      ∃ pid, findProductsByName ({ db1 with productInfos := [], productParameters := [], orderItems := [] } : DB) g.name =
        [{ id := pid, name := g.name, category := g.category }] := by
    intro g hg
    by_cases hn : g.name ∈ (keptBy d.categories d.goods).map GoodsItem.name
    · obtain ⟨g2, hg2, hg2n⟩ := List.mem_map.mp hn
      have hgg : g2 = g := List.inj_on_of_nodup_map hwf.1 (hsubkept g2 hg2) hg hg2n
      subst hgg
      exact Or.inr (hkeptprod g2 hg2)
    · exact Or.inl (hnameabs g.name hn)
  obtain ⟨db2, hfold, c1, c2, c3, c4, c5, c6, c7, c8, c9, c10, c11, c12, c13, c14, c15,
      c16, c17, c18, c19, c20⟩ :=
    goodsFold_run 1 d.goods ({ db1 with productInfos := [], productParameters := [], orderItems := [] } : DB)
      hinvD hwf.1 hprod hwf.2.1 (fun g hg h => (nomatch h)) hwf.2.2.1 hwf.2.2.2.1
  have hfold2 : goodsFold 1 (d.goods.map encodeItem) (deleteShopProductInfos db1 1) =
      .ok db2 := by
    rw [hdel]
    exact hfold
  have hrun := (importGoodsPhase_run 1 d _ _ hcats).1 db2 hfold2
  refine ⟨db2, heq1.trans hrun, ?_, ?_, ?_, ?_, ?_⟩
  · rw [show db2.categories = db1.categories from c3, hcats1]
  · have h0 := c15
    rw [hkeptD] at h0
    rw [h0, show parameterNames ({ db1 with productInfos := [], productParameters := [], orderItems := [] } : DB) = parameterNames db1 from rfl, hpar1]
    exact addNamesAll_idem (keptBy d.categories d.goods)
  · have h0 := c14 [] rfl
    rw [hkeptD] at h0
    exact h0
  · have h0 := c11
    rw [hkeptD] at h0
    exact h0
  · exact fun pi hpi => (c12 pi hpi).resolve_left (fun hm => (nomatch hm))

/-- C1 counterexample: importing the specification scenario document (one
category, one goods entry with a parameter) succeeds, but the export of the
resulting state carries an empty categories list (the importer never populates
the Category.shops link), keys the goods category under category_id, and the
exported document is itself rejected by the importer with a missing-field
error for category, so the round trip fails. -/
theorem C1_roundtrip_counterexample :
    (do_import true true (.ok (encodeDoc specDoc)) (some 5) dbC3).1 = .ok ∧
    do_export 1 importedC1 = .ok exportedC1 ∧
    exportedC1.get? "categories" = some (.arr []) ∧
    specDoc.categories.map encodeCat = [.map [("id", .i 1), ("name", .s "Phones")]] ∧
    exportedC1.get? "goods" = some (.arr (specDoc.goods.map exportItemY)) ∧
    (do_import true true (.ok exportedC1) (some 5) importedC1).1 =
      .fatalError "Отсутствует поле в товаре: category" :=
  ⟨rfl, rfl, rfl, rfl, rfl, rfl⟩

/-- C1: amended round-trip contract. A clean import of a well-formed document
whose goods entries all resolve their category succeeds, and the export of the
resulting state reproduces every goods entry field for field but under the key
category_id instead of category, while the exported categories list is empty;
consequently every exported goods entry lacks the required category field and
is rejected on re-import. -/
theorem C1_export_content (uid : Nat) (us : List UserRow) (d : Doc)
    (huser : us.any (fun u => u.id == uid && u.user_type == "shop") = true)
    (hwf : WellFormedDoc d)
    (hkept : keptBy d.categories d.goods = d.goods) :
    ∃ db1, do_import true true (.ok (encodeDoc d)) (some uid) (initDB us) = (.ok, db1) ∧
      exportGoodsY db1 1 = .ok (d.goods.map exportItemY) ∧
      exportCategoriesY db1 1 = [] ∧
      (∀ g ∈ d.goods, firstMissingField (exportItemY g) = some "category") ∧
      (∀ g ∈ d.goods,
        (exportItemY g).get? "category" = none ∧
        (exportItemY g).get? "category_id" = some (.i g.category) ∧
        (exportItemY g).get? "name" = some (.s g.name) ∧
        (exportItemY g).get? "model" = some (.s g.model) ∧
        (exportItemY g).get? "quantity" = some (.i g.quantity) ∧
        (exportItemY g).get? "price" = some (.i g.price) ∧
        (exportItemY g).get? "price_rrc" = some (.i g.price_rrc) ∧
        (exportItemY g).get? "id" = some (.i g.id) ∧
        (exportItemY g).get? "parameters" = some (.map g.parameters)) := by
  obtain ⟨db1, h1, hu, hsh, hc, hcs, hct, hor, hoi, hns, hext, hpish, hexp, hpar, hinv,
      hkp, hna, hpp⟩ :=
    do_import_clean uid us d huser hwf
  refine ⟨db1, h1, ?_, ?_, fun g hg => rfl,
    fun g hg => ⟨rfl, rfl, rfl, rfl, rfl, rfl, rfl, rfl, rfl⟩⟩
  · rw [hkept] at hexp
    exact hexp
  · simp only [exportCategoriesY]
    rw [hcs]
    have h0 : db1.categories.filter (fun c => ([] : List (Int × Nat)).contains (c.id, 1)) = [] := by
      rw [List.filter_eq_nil_iff]
      intro a ha
      simp
    rw [h0]
    rfl

/-- C1 witness: the amended theorem at the specification scenario document. -/
theorem C1_export_content_witness :
    ∃ db1, do_import true true (.ok (encodeDoc specDoc)) (some 5)
        (initDB [{ id := 5, user_type := "shop" }]) = (.ok, db1) ∧
      exportGoodsY db1 1 = .ok (specDoc.goods.map exportItemY) ∧
      exportCategoriesY db1 1 = [] ∧
      (∀ g ∈ specDoc.goods, firstMissingField (exportItemY g) = some "category") ∧
      (∀ g ∈ specDoc.goods,
        (exportItemY g).get? "category" = none ∧
        (exportItemY g).get? "category_id" = some (.i g.category) ∧
        (exportItemY g).get? "name" = some (.s g.name) ∧
        (exportItemY g).get? "model" = some (.s g.model) ∧
        (exportItemY g).get? "quantity" = some (.i g.quantity) ∧
        (exportItemY g).get? "price" = some (.i g.price) ∧
        (exportItemY g).get? "price_rrc" = some (.i g.price_rrc) ∧
        (exportItemY g).get? "id" = some (.i g.id) ∧
        (exportItemY g).get? "parameters" = some (.map g.parameters)) :=
  C1_export_content 5 [{ id := 5, user_type := "shop" }] specDoc (by decide)
    (by unfold WellFormedDoc GoodsItem.nonneg ; decide) rfl

/-- C2: code bug. In the state dbC2 the basket order of user 9 holds a line
whose requested quantity (10) exceeds the stock of its ProductInfo (5), yet
checkout does not return the stock rejection: it raises AttributeError (the
view reads order.items while the related name is order_items) before the stock
check, producing an unhandled server error; the order status stays basket and
the database is unchanged, but no structured rejection reaches the caller. -/
theorem C2_checkout_crash :
    (∃ oi ∈ dbC2.orderItems, ∃ pi ∈ dbC2.productInfos,
      oi.product_info = pi.id ∧ pi.quantity < oi.quantity) ∧
    OrderView_post 9 1 3 dbC2 =
      (.serverError "AttributeError: Order object has no attribute items", dbC2) ∧
    (OrderView_post 9 1 3 dbC2).1.isJsonRejection = false ∧
    ((OrderView_post 9 1 3 dbC2).2.orders.map (fun o => (o.id, o.status))) = [(1, "basket")] :=
  ⟨by decide, rfl, rfl, rfl⟩

/-- C3: code bug. A fetch failure makes do_import return the load-error
response immediately and unchanged state: no retry is ever scheduled, because
the inner exception handler returns before the retrying handler is reached;
an unreachable URL likewise returns a fatal error at once. -/
theorem C3_no_retry (db : DB) (uid : Nat) (msg : String) (data : Y)
    (h : db.users.any (fun u => u.id == uid && u.user_type == "shop") = true) :
    do_import true true (.failed msg) (some uid) db = (.loadError msg, db) ∧
    (do_import true true (.failed msg) (some uid) db).1 ≠ .retryScheduled ∧
    do_import true false (.ok data) (some uid) db = (.fatalError "Неверный URL", db) := by
  unfold do_import
  simp [h]

/-- C3 witness: the retry theorem at a concrete shop user and failure. -/
theorem C3_no_retry_witness :
    do_import true true (.failed "connection refused") (some 5) dbC3 =
      (.loadError "connection refused", dbC3) ∧
    (do_import true true (.failed "connection refused") (some 5) dbC3).1 ≠ .retryScheduled ∧
    do_import true false (.ok (.i 0)) (some 5) dbC3 = (.fatalError "Неверный URL", dbC3) :=
  C3_no_retry dbC3 5 "connection refused" (.i 0) (by decide)

/-- C4 counterexample: in dbC4 the caller (user 1) passes contact 5, which
belongs to user 2; the checkout does not return a permission rejection but an
unhandled server error (the ownership of the contact is never inspected). -/
theorem C4_foreign_contact_counterexample :
    (∃ c ∈ dbC4.contacts, c.id = 5 ∧ c.user ≠ 1) ∧
    (OrderView_post 1 1 5 dbC4).1.isJsonRejection = false ∧
    (OrderView_post 1 1 5 dbC4).1.isServerError = true ∧
    (OrderView_post 1 1 5 dbC4).2 = dbC4 :=
  ⟨by decide, rfl, rfl, rfl⟩

/-- C4: amended. OrderView.post performs no contact-ownership check at all:
for every caller, order id, contact id and state, the request ends in an
unhandled server error (AttributeError on order.items, or DoesNotExist for a
missing order) with the database unchanged; no permission error is produced. -/
theorem C4_ownership_not_checked (uid : Nat) (oid cid : Int) (db : DB) :
    (OrderView_post uid oid cid db).1.isServerError = true ∧
    (OrderView_post uid oid cid db).1.isJsonRejection = false ∧
    (OrderView_post uid oid cid db).2 = db := by
  unfold OrderView_post
  cases h : db.orders.find? (fun o => (o.id : Int) == oid && o.user == uid) <;>
    simp [OrderResult.isServerError, OrderResult.isJsonRejection]

/-- C5: confirmed. Importing a well-formed document twice in sequence for the
same shop on a clean start yields the same Category rows, the same Parameter
names, the same exported goods rows (model, price, price_rrc, quantity,
external id, product name, category and parameters of every ProductInfo row of
the shop) and the same external-id multiset as a single import: the second run
deletes the prior rows of the shop and recreates the same content. -/
theorem C5_reimport_idempotent (uid : Nat) (us : List UserRow) (d : Doc)
    (huser : us.any (fun u => u.id == uid && u.user_type == "shop") = true)
    (hwf : WellFormedDoc d) :
    ∃ db1 db2,
      do_import true true (.ok (encodeDoc d)) (some uid) (initDB us) = (.ok, db1) ∧
      do_import true true (.ok (encodeDoc d)) (some uid) db1 = (.ok, db2) ∧
      db2.categories = db1.categories ∧
      parameterNames db2 = parameterNames db1 ∧
      exportGoodsY db2 1 = exportGoodsY db1 1 ∧
      extIds db2 = extIds db1 ∧
      (∀ pi ∈ db1.productInfos, pi.shop = 1) ∧
      (∀ pi ∈ db2.productInfos, pi.shop = 1) := by
  obtain ⟨db1, h1, hu, hsh, hc, hcs, hct, hor, hoi, hns, hext, hpish, hexp, hpar, hinv,
      hkp, hna, hpp⟩ :=
    do_import_clean uid us d huser hwf
  have huser1 : db1.users.any (fun u => u.id == uid && u.user_type == "shop") = true := by
    rw [hu]
    exact huser
  obtain ⟨db2, h2, k1, k2, k3, k4, k5⟩ :=
    do_import_again uid d db1 hwf huser1 hsh hc hoi hpish hpp hinv hpar hkp hna
  exact ⟨db1, db2, h1, h2, by rw [k1, hc], by rw [k2, hpar], by rw [k3, hexp],
    by rw [k4, hext], hpish, k5⟩

/-- C5 witness: the idempotence theorem at the specification scenario. -/
theorem C5_reimport_idempotent_witness :
    ∃ db1 db2,
      do_import true true (.ok (encodeDoc specDoc)) (some 5)
        (initDB [{ id := 5, user_type := "shop" }]) = (.ok, db1) ∧
      do_import true true (.ok (encodeDoc specDoc)) (some 5) db1 = (.ok, db2) ∧
      db2.categories = db1.categories ∧
      parameterNames db2 = parameterNames db1 ∧
      exportGoodsY db2 1 = exportGoodsY db1 1 ∧
      extIds db2 = extIds db1 ∧
      (∀ pi ∈ db1.productInfos, pi.shop = 1) ∧
      (∀ pi ∈ db2.productInfos, pi.shop = 1) :=
  C5_reimport_idempotent 5 [{ id := 5, user_type := "shop" }] specDoc (by decide)
    (by unfold WellFormedDoc GoodsItem.nonneg ; decide)

theorem basketLoop_abort (oid : Nat) (pre post : List BasketItemIn)
    (bad : BasketItemIn) (db db1 : DB) (c0 c1 : Nat)
    (hpre : basketLoop oid pre c0 db = (.okCreated c1, db1)) (hbad : bad.quantity < 0) :
    basketLoop oid (pre ++ bad :: post) c0 db = (.validationError, db1) := by
  induction pre generalizing db c0 with
  | nil =>
    obtain ⟨-, rfl⟩ : BasketResult.okCreated c0 = .okCreated c1 ∧ db = db1 :=
      ⟨congrArg Prod.fst hpre, congrArg Prod.snd hpre⟩
    simp only [List.nil_append, basketLoop, basketItemValid]
    have hq : decide (0 ≤ bad.quantity) = false := by simp; omega
    rw [hq]
    simp
  | cons it rest ih =>
    simp only [basketLoop, List.cons_append] at hpre ⊢
    split at hpre
    case isTrue hv =>
      rw [if_pos hv]
      split at hpre
      case h_1 heq => exact absurd (congrArg Prod.fst hpre) (by simp)
      case h_2 pi heq =>
        split at hpre
        case isTrue hdup => exact absurd (congrArg Prod.fst hpre) (by simp)
        case isFalse hdup =>
          rw [if_neg hdup]
          exact ih _ _ hpre
    case isFalse hv =>
      exact absurd (congrArg Prod.fst hpre) (by simp)

/-- C6 counterexample: posting three basket items of which the second has a
negative quantity creates only the first item, drops the valid third item, and
returns a whole-request validation error rather than a per-item failure with a
created count of 2. -/
theorem C6_partial_failure_counterexample :
    (BasketView_post 7 (some [⟨1, 2⟩, ⟨2, -1⟩, ⟨3, 3⟩]) dbC6).1 = .validationError ∧
    (BasketView_post 7 (some [⟨1, 2⟩, ⟨2, -1⟩, ⟨3, 3⟩]) dbC6).1 ≠ .okCreated 2 ∧
    ((BasketView_post 7 (some [⟨1, 2⟩, ⟨2, -1⟩, ⟨3, 3⟩]) dbC6).2.orderItems.map
        (fun oi => (oi.product_info, oi.quantity))) = [(1, 2)] :=
  ⟨rfl, by decide, rfl⟩

/-- C6: amended. An invalid quantity in a basket-add request is not a per-item
failure: the first invalid item aborts the whole batch with a validation-error
response, the items created before it persist (no transaction), and every item
after it, valid or not, is silently dropped. -/
theorem C6_batch_abort (uid : Nat) (pre post : List BasketItemIn) (bad : BasketItemIn)
    (db db1 : DB) (c1 : Nat)
    (horder : db.orders.filter (fun x => x.user == uid && x.status == "basket") = [])
    (hpre : basketLoop db.nextOrderId pre 0 { db with orders := db.orders ++ [{ id := db.nextOrderId, user := uid, status := "basket", contact := none }], nextOrderId := db.nextOrderId + 1 } = (.okCreated c1, db1))
    (hbad : bad.quantity < 0) :
    BasketView_post uid (some (pre ++ bad :: post)) db = (.validationError, db1) := by
  unfold BasketView_post
  cases hl : pre ++ bad :: post with
  | nil => exact absurd hl (by simp)
  | cons x xs =>
    simp only [horder]
    rw [← hl]
    exact basketLoop_abort db.nextOrderId pre post bad _ db1 0 c1 hpre hbad

/-- C6 witness: the batch-abort theorem at a concrete three-item request. -/
theorem C6_batch_abort_witness :
    BasketView_post 7 (some ([⟨1, 2⟩] ++ (⟨2, -1⟩ : BasketItemIn) :: [⟨3, 3⟩])) dbC6 =
      (.validationError, (BasketView_post 7 (some [⟨1, 2⟩]) dbC6).2) :=
  C6_batch_abort 7 [⟨1, 2⟩] [⟨3, 3⟩] ⟨2, -1⟩ dbC6
    ((BasketView_post 7 (some [⟨1, 2⟩]) dbC6).2) 1 rfl (by rfl) (by decide)

/-- C7: confirmed. If exactly one goods entry (identified by its unique name)
references a category id matching no category of the document, a clean import
still succeeds: every other entry gets its ProductInfo row (visible in the
export and in the external-id set), while the bad entry alone is skipped - its
external id is absent and no product row with its name exists. -/
theorem C7_skip_unknown_category (uid : Nat) (us : List UserRow) (d : Doc) (g0 : GoodsItem)
    (huser : us.any (fun u => u.id == uid && u.user_type == "shop") = true)
    (hwf : WellFormedDoc d)
    (hg0 : g0 ∈ d.goods)
    (hbad : d.categories.filter (fun c => c.id == g0.category) = [])
    (hgood : ∀ g ∈ d.goods, g.name ≠ g0.name →
      (d.categories.filter (fun c => c.id == g.category)).length = 1) :
    ∃ db1, do_import true true (.ok (encodeDoc d)) (some uid) (initDB us) = (.ok, db1) ∧
      exportGoodsY db1 1 =
        .ok ((d.goods.filter (fun g => !(g.name == g0.name))).map exportItemY) ∧
      extIds db1 = (d.goods.filter (fun g => !(g.name == g0.name))).map GoodsItem.id ∧
      (∀ g ∈ d.goods, g.name ≠ g0.name → g.id ∈ extIds db1) ∧
      g0.id ∉ extIds db1 ∧
      findProductsByName db1 g0.name = [] ∧
      (∀ g ∈ d.goods, g.name ≠ g0.name → ∃ pid, findProductsByName db1 g.name =
        [{ id := pid, name := g.name, category := g.category }]) := by
  have hkeq : keptBy d.categories d.goods = d.goods.filter (fun g => !(g.name == g0.name)) := by
    unfold keptBy
    refine List.filter_congr ?_
    intro g hg
    by_cases hn : g.name = g0.name
    · have hgg : g = g0 := List.inj_on_of_nodup_map hwf.1 hg hg0 hn
      subst hgg
      rw [hbad]
      simp
    · rw [hgood g hg hn]
      simp [hn]
  obtain ⟨db1, h1, hu, hsh, hc, hcs, hct, hor, hoi, hns, hext, hpish, hexp, hpar, hinv,
      hkp, hna, hpp⟩ :=
    do_import_clean uid us d huser hwf
  rw [hkeq] at hext hexp hkp hna
  refine ⟨db1, h1, hexp, hext, ?_, ?_, ?_, ?_⟩
  · intro g hg hn
    rw [hext]
    refine List.mem_map_of_mem _ ?_
    rw [List.mem_filter]
    exact ⟨hg, by simp [hn]⟩
  · rw [hext]
    intro hmem
    obtain ⟨g2, hg2, hg2id⟩ := List.mem_map.mp hmem
    have hg2g : g2 ∈ d.goods := List.mem_of_mem_filter hg2
    have hgg : g2 = g0 := List.inj_on_of_nodup_map hwf.2.1 hg2g hg0 hg2id
    subst hgg
    have hx := (List.mem_filter.mp hg2).2
    simp at hx
  · refine hna g0.name ?_
    intro hmem
    obtain ⟨g2, hg2, hg2n⟩ := List.mem_map.mp hmem
    have hx := (List.mem_filter.mp hg2).2
    rw [hg2n] at hx
    simp at hx
  · intro g hg hn
    refine hkp g ?_
    rw [List.mem_filter]
    exact ⟨hg, by simp [hn]⟩

/-- C7 witness: the skip theorem at a three-entry document whose middle entry
references the unknown category 99. -/
theorem C7_skip_unknown_category_witness :
    ∃ db1, do_import true true (.ok (encodeDoc docC7)) (some 5)
        (initDB [{ id := 5, user_type := "shop" }]) = (.ok, db1) ∧
      exportGoodsY db1 1 =
        .ok ((docC7.goods.filter (fun g => !(g.name == "P2"))).map exportItemY) ∧
      extIds db1 = (docC7.goods.filter (fun g => !(g.name == "P2"))).map GoodsItem.id ∧
      (∀ g ∈ docC7.goods, g.name ≠ "P2" → g.id ∈ extIds db1) ∧
      (102 : Int) ∉ extIds db1 ∧
      findProductsByName db1 "P2" = [] ∧
      (∀ g ∈ docC7.goods, g.name ≠ "P2" → ∃ pid, findProductsByName db1 g.name =
        [{ id := pid, name := g.name, category := g.category }]) :=
  C7_skip_unknown_category 5 [{ id := 5, user_type := "shop" }] docC7
    { id := 102, name := "P2", category := 99, model := "m2", quantity := 2, price := 20, price_rrc := 22, parameters := [] }
    (by decide) (by unfold WellFormedDoc GoodsItem.nonneg ; decide)
    (List.mem_cons_of_mem _ (List.mem_cons_self _ _)) (by decide) (by decide)

/-- C8: confirmed. The external_id column is unique across all ProductInfo
rows globally (unique=True on the field), not merely per (product, shop): when
the document of an owned shop contains an entry whose external id is already
listed by a row of a different shop - a row that survives the pre-import
delete - the creation of that row fails, the transaction rolls the goods phase
back, and the import ends in a fatal error with the database unchanged. -/
theorem C8_global_external_id (uid : Nat) (d : Doc) (db : DB) (sh : ShopRow)
    (g : GoodsItem) (piOld : ProductInfoRow)
    (huser : db.users.any (fun u => u.id == uid && u.user_type == "shop") = true)
    (hfilter : db.shops.filter (fun s => s.name == d.shop) = [sh])
    (howner : sh.user = some uid)
    (hcats : ∀ c ∈ d.categories, (findCategories db c.id).length = 1)
    (hpinv : ProdInv db)
    (hold : piOld ∈ db.productInfos) (holdshop : piOld.shop ≠ sh.id)
    (hg : g ∈ d.goods) (hgid : g.id = piOld.external_id)
    (hgkept : (findCategories db g.category).length = 1) :
    ∃ e, do_import true true (.ok (encodeDoc d)) (some uid) db = (.fatalError e, db) := by
  obtain ⟨-, hfound⟩ := do_import_steps uid d db huser
  have heq1 := hfound sh hfilter howner
  have hcatsP : catsPhase (d.categories.map encodeCat) db = .ok db :=
    catsPhase_found d.categories db hcats
  have hsurv : piOld ∈ (deleteShopProductInfos db sh.id).productInfos :=
    ((deleteShop_frames db sh.id).2.2.2.2.2.2.1) piOld hold holdshop
  have hpinvD : ProdInv (deleteShopProductInfos db sh.id) := hpinv
  have hmem : piOld.external_id ∈ extIds (deleteShopProductInfos db sh.id) :=
    List.mem_map_of_mem _ hsurv
  have hgk2 : (findCategories (deleteShopProductInfos db sh.id) g.category).length = 1 := hgkept
  have hnot := goodsFold_conflict sh.id d.goods (deleteShopProductInfos db sh.id)
    piOld.external_id hpinvD hmem ⟨g, hg, hgid, hgk2⟩
  cases hres : goodsFold sh.id (d.goods.map encodeItem) (deleteShopProductInfos db sh.id) with
  | ok dbx => exact absurd hres (hnot dbx)
  | error e =>
    exact ⟨e, heq1.trans ((importGoodsPhase_run sh.id d db db hcatsP).2 e hres)⟩

/-- C8 witness: the global-uniqueness theorem at dbC8/docC8, where shop A
reuses external id 100 already listed by shop B. -/
theorem C8_global_external_id_witness :
    ∃ e, do_import true true (.ok (encodeDoc docC8)) (some 5) dbC8 = (.fatalError e, dbC8) :=
  C8_global_external_id 5 docC8 dbC8 { id := 1, name := "A", user := some 5 }
    { id := 100, name := "Q", category := 1, model := "m2", quantity := 1, price := 5, price_rrc := 6, parameters := [] }
    { id := 1, model := "m", external_id := 100, product := 1, shop := 2, quantity := 3, price := 10, price_rrc := 12 }
    (by decide) (by decide) rfl (by decide) (by unfold ProdInv ; decide) (by decide) (by decide)
    (List.mem_singleton.mpr rfl) rfl (by decide)

/-- C9: confirmed. Product rows are shared globally by name: when an import
for a newly created shop contains an entry whose product name already exists
under a different category, the shared Product row is reassigned to the entry
category, while the ProductInfo rows of other shops that reference that
Product row survive the import - so the category observed on another shop
listing of the same name changes as a side effect. -/
theorem C9_cross_shop_reassign (uid : Nat) (d : Doc) (db : DB) (g0 : GoodsItem)
    (p0 : ProductRow) (piB : ProductInfoRow)
    (huser : db.users.any (fun u => u.id == uid && u.user_type == "shop") = true)
    (hnew : db.shops.filter (fun s => s.name == d.shop) = [])
    (hcats : ∀ c ∈ d.categories, (findCategories db c.id).length = 1)
    (hpinv : ProdInv db)
    (hg0 : g0 ∈ d.goods)
    (huniq : ∀ x ∈ d.goods, x.name = g0.name → x = g0)
    (hrow : findProductsByName db g0.name = [p0]) (hp0n : p0.name = g0.name)
    (hkept : (findCategories db g0.category).length = 1)
    (hpiB : piB ∈ db.productInfos) (hpiBshop : piB.shop ≠ db.nextShopId) :
    ∀ db2, do_import true true (.ok (encodeDoc d)) (some uid) db = (.ok, db2) →
      findProductsByName db2 g0.name = [{ p0 with category := g0.category }] ∧
      piB ∈ db2.productInfos := by
  intro db2 hok
  obtain ⟨hcreate, -⟩ := do_import_steps uid d db huser
  have heq1 := hcreate hnew
  have hcatsS : ∀ c ∈ d.categories, (findCategories ({ db with shops := db.shops ++ [{ id := db.nextShopId, name := d.shop, user := some uid }], nextShopId := db.nextShopId + 1 } : DB) c.id).length = 1 := hcats
  have hcatsP : catsPhase (d.categories.map encodeCat) ({ db with shops := db.shops ++ [{ id := db.nextShopId, name := d.shop, user := some uid }], nextShopId := db.nextShopId + 1 } : DB) = .ok ({ db with shops := db.shops ++ [{ id := db.nextShopId, name := d.shop, user := some uid }], nextShopId := db.nextShopId + 1 } : DB) :=
    catsPhase_found d.categories _ hcatsS
  have himp : importGoodsPhase db.nextShopId (encodeDoc d) ({ db with shops := db.shops ++ [{ id := db.nextShopId, name := d.shop, user := some uid }], nextShopId := db.nextShopId + 1 } : DB) = (.ok, db2) :=
    heq1.symm.trans hok
  cases hres : goodsFold db.nextShopId (d.goods.map encodeItem)
      (deleteShopProductInfos ({ db with shops := db.shops ++ [{ id := db.nextShopId, name := d.shop, user := some uid }], nextShopId := db.nextShopId + 1 } : DB) db.nextShopId) with
  | error e =>
    rw [(importGoodsPhase_run db.nextShopId d _ _ hcatsP).2 e hres] at himp
    exact absurd (congrArg Prod.fst himp) (by simp)
  | ok db4 =>
    have h4 := (importGoodsPhase_run db.nextShopId d _ _ hcatsP).1 db4 hres
    have hdb : db4 = db2 := congrArg Prod.snd (h4.symm.trans himp)
    subst hdb
    have hpinvD : ProdInv (deleteShopProductInfos ({ db with shops := db.shops ++ [{ id := db.nextShopId, name := d.shop, user := some uid }], nextShopId := db.nextShopId + 1 } : DB) db.nextShopId) := hpinv
    have hrowD : findProductsByName (deleteShopProductInfos ({ db with shops := db.shops ++ [{ id := db.nextShopId, name := d.shop, user := some uid }], nextShopId := db.nextShopId + 1 } : DB) db.nextShopId) g0.name = [p0] := hrow
    have hkeptD : (findCategories (deleteShopProductInfos ({ db with shops := db.shops ++ [{ id := db.nextShopId, name := d.shop, user := some uid }], nextShopId := db.nextShopId + 1 } : DB) db.nextShopId) g0.category).length = 1 := hkept
    obtain ⟨c1, c2⟩ := goodsFold_reassign db.nextShopId g0 p0 d.goods _ hpinvD hg0 huniq
      hrowD hp0n hkeptD db4 hres
    refine ⟨c1, c2 piB ?_⟩
    exact ((deleteShop_frames _ db.nextShopId).2.2.2.2.2.2.1) piB hpiB hpiBshop

/-- C9 witness: the reassignment theorem at dbC9/docC9; after user 5 imports
the catalog of new shop A, the product X shared with shop B carries category 2
while the shop B listing row survives. -/
theorem C9_cross_shop_reassign_witness :
    findProductsByName (do_import true true (.ok (encodeDoc docC9)) (some 5) dbC9).2 "X" =
      [{ id := 1, name := "X", category := 2 }] ∧
    ({ id := 1, model := "m", external_id := 50, product := 1, shop := 1, quantity := 4, price := 10, price_rrc := 12 } : ProductInfoRow) ∈
      (do_import true true (.ok (encodeDoc docC9)) (some 5) dbC9).2.productInfos :=
  C9_cross_shop_reassign 5 docC9 dbC9
    { id := 100, name := "X", category := 2, model := "m9", quantity := 7, price := 11, price_rrc := 13, parameters := [] }
    { id := 1, name := "X", category := 1 }
    { id := 1, model := "m", external_id := 50, product := 1, shop := 1, quantity := 4, price := 10, price_rrc := 12 }
    (by decide) (by decide) (by decide) (by unfold ProdInv ; decide)
    (List.mem_singleton.mpr rfl) (fun x hx h => List.mem_singleton.mp hx)
    (by decide) rfl (by decide) (by decide) (by decide)
    ((do_import true true (.ok (encodeDoc docC9)) (some 5) dbC9).2) rfl

/-- C10: confirmed. Whenever the order-placed signal handler runs for an
existing user, it takes the users lowest-id Order still in basket status and
flips exactly that order (by id) to status new, leaving ProductInfo, OrderItem
and Contact rows untouched: a state change beyond the checked-out order
itself. -/
theorem C10_signal_side_effect (db : DB) (uid : Nat) (o : OrderRow)
    (hu : db.users.any (fun u => u.id == uid) = true)
    (ho : o ∈ db.orders) (houser : o.user = uid) (hstat : o.status = "basket")
    (hmin : ∀ x ∈ db.orders, x.user = uid → x.status = "basket" → o.id ≤ x.id)
    (hnodup : (db.orders.map OrderRow.id).Nodup) :
    (new_order_signal uid db).orders =
      db.orders.map (fun x => if x.id == o.id then { x with status := "new" } else x) ∧
    (new_order_signal uid db).productInfos = db.productInfos ∧
    (new_order_signal uid db).orderItems = db.orderItems ∧
    (new_order_signal uid db).contacts = db.contacts := by
  have hfind : (db.users.find? (fun u => u.id == uid)).isSome = true := by
    rw [List.find?_isSome]
    rcases List.any_eq_true.mp hu with ⟨u, hu1, hu2⟩
    exact ⟨u, hu1, hu2⟩
  have hbmem : o ∈ db.orders.filter (fun x => x.user == uid && x.status == "basket") := by
    rw [List.mem_filter]
    refine ⟨ho, ?_⟩
    simp [houser, hstat]
  haveI : IsTotal OrderRow (fun a b => a.id ≤ b.id) := ⟨fun a b => Nat.le_total a.id b.id⟩
  haveI : IsTrans OrderRow (fun a b => a.id ≤ b.id) := ⟨fun _ _ _ hab hbc => le_trans hab hbc⟩
  cases hf : db.users.find? (fun u => u.id == uid) with
  | none => simp [hf] at hfind
  | some u =>
    rcases hsort : (db.orders.filter (fun x => x.user == uid && x.status == "basket")).insertionSort
        (fun a b => a.id ≤ b.id) with _ | ⟨x, rest⟩
    · have hperm := (db.orders.filter
          (fun x => x.user == uid && x.status == "basket")).perm_insertionSort (fun a b => a.id ≤ b.id)
      rw [hsort] at hperm
      have := hperm.symm.mem_iff.mp hbmem
      simp at this
    · have hperm := (db.orders.filter
          (fun x => x.user == uid && x.status == "basket")).perm_insertionSort (fun a b => a.id ≤ b.id)
      have hsorted := (db.orders.filter
          (fun x => x.user == uid && x.status == "basket")).sorted_insertionSort (fun a b => a.id ≤ b.id)
      rw [hsort] at hperm hsorted
      have hxmem : x ∈ db.orders.filter (fun x => x.user == uid && x.status == "basket") :=
        hperm.subset (List.mem_cons_self x rest)
      have hxb : x.user = uid ∧ x.status = "basket" := by
        have := (List.mem_filter.mp hxmem).2
        simpa using this
      have hox : o.id ≤ x.id := hmin x (List.mem_filter.mp hxmem).1 hxb.1 hxb.2
      have hxo : x.id ≤ o.id := by
        have homem : o ∈ x :: rest := hperm.symm.subset hbmem
        rcases List.mem_cons.mp homem with h | h
        · rw [h]
        · exact List.rel_of_sorted_cons hsorted o h
      have hxeq : x = o :=
        List.inj_on_of_nodup_map hnodup (List.mem_filter.mp hxmem).1 ho (le_antisymm hxo hox)
      subst hxeq
      unfold new_order_signal
      simp only [hf, hsort]
      refine ⟨?_, ?_, ?_, ?_⟩ <;> trivial

/-- C10 witness: the signal theorem at dbC10, where user 3 has basket orders 2
and 5; order 2 (the lowest id) is flipped to new. -/
theorem C10_signal_side_effect_witness :
    (new_order_signal 3 dbC10).orders =
      dbC10.orders.map (fun x =>
        if x.id == (⟨2, 3, "basket", none⟩ : OrderRow).id then { x with status := "new" } else x) ∧
    (new_order_signal 3 dbC10).productInfos = dbC10.productInfos ∧
    (new_order_signal 3 dbC10).orderItems = dbC10.orderItems ∧
    (new_order_signal 3 dbC10).contacts = dbC10.contacts :=
  C10_signal_side_effect dbC10 3 ⟨2, 3, "basket", none⟩ (by decide) (by decide) (by decide)
    (by decide) (by decide) (by decide)
